import Mathlib

/-!
Verification development for the seo-article-generator repository.

The core under study is the checkpointed pipeline orchestrator
(`app/pipeline/orchestrator.py`), the job data model (`app/models/job.py`,
`app/models/article.py`, `app/models/serp.py`) and the file-backed job store
(`app/persistence/job_store.py`).

Shallow embedding conventions:
* Python `datetime.utcnow()` is modelled by a monotone `Nat` clock threaded
  through the operations; every call to `utcnow` reads the clock and advances
  it by one.
* Python exceptions are modelled by the `Exc` record (message and `repr`
  string); fallible operations return `Except Exc _` or pair their result
  with an `Option Exc`.
* The external step implementations (SERP provider, LLM provider, SEO
  validation) are abstracted as a `StepBehavior` record of functions with the
  exact call shapes used by `PipelineOrchestrator._execute_step`; each call
  either produces the step's artifact or raises.
* Python `float` fields (keyword density, SEO score) are modelled as `Int`
  surrogate values; their JSON round-trip is exact in the source
  (repr-based float printing), which the surrogate preserves.
* The JSON file store is modelled at the level of parsed JSON values: a file
  system maps paths to `FileData` (either raw/empty content that fails to
  parse, or a structured `Json` value).  `model_dump_json` / `model_validate`
  are modelled by `encodeJob` / `decodeJob` over that `Json` type.
-/

set_option maxRecDepth 20000

namespace SeoGen

/-! ## Data model (`app/models/job.py`, `serp.py`, `article.py`) -/

/-- `JobStatus` enum. -/
inductive JobStatus where
  | pending
  | running
  | completed
  | failed
deriving DecidableEq

/-- `PipelineStep` enum. -/
inductive PipelineStep where
  | created
  | serp_analysis
  | theme_extraction
  | outline_generation
  | article_generation
  | seo_validation
  | completed
deriving DecidableEq

/-- `JobInput`: topic (pydantic `min_length=3, max_length=500`), word count
(`ge=500, le=5000`, default 1500), language (default "en"). -/
structure JobInput where
  topic : String
  word_count : Int
  language : String
deriving DecidableEq

/-- `SerpResult`: rank has pydantic bounds `ge=1, le=100`. -/
structure SerpResult where
  rank : Int
  url : String
  title : String
  snippet : String
deriving DecidableEq

/-- `PeopleAlsoAsk`. -/
structure PeopleAlsoAsk where
  question : String
  snippet : String
deriving DecidableEq

/-- `SerpData`. -/
structure SerpData where
  query : String
  results : List SerpResult
  people_also_ask : List PeopleAlsoAsk
  related_searches : List String
deriving DecidableEq

/-- `PageSignals`. -/
structure PageSignals where
  url : String
  title : String
  meta_description : String
  h1 : String
  h2_headings : List String
  h3_headings : List String
  word_count : Int
  fetch_success : Bool
  error : Option String
deriving DecidableEq

/-- `ThemeAnalysis`. -/
structure ThemeAnalysis where
  search_intent : String
  primary_themes : List String
  common_sections : List String
  content_gaps : List String
  suggested_angles : List String
  faq_questions : List String
deriving DecidableEq

/-- `SEOMetadata`. -/
structure SEOMetadata where
  title_tag : String
  meta_description : String
  slug : String
  primary_keyword : String
  secondary_keywords : List String
deriving DecidableEq

/-- `KeywordAnalysis`; `primary_density` is a Python float, modelled by the
`Int` surrogate. `secondary_counts` is a `dict[str, int]`. -/
structure KeywordAnalysis where
  primary_keyword : String
  primary_count : Int
  primary_density : Int
  secondary_keywords : List String
  secondary_counts : List (String × Int)
deriving DecidableEq

/-- `InternalLink`. -/
structure InternalLink where
  anchor_text : String
  target_topic : String
  placement_hint : String
deriving DecidableEq

/-- `ExternalReference`. -/
structure ExternalReference where
  url : String
  source_name : String
  why_authoritative : String
  placement_hint : String
deriving DecidableEq

/-- `HeadingNode`: level has pydantic bounds `ge=1, le=6`. -/
structure HeadingNode where
  level : Int
  text : String
  target_words : Int
deriving DecidableEq

mutual
/-- `OutlineSection` is recursive (`subsections: list[OutlineSection]`).
It is declared mutually with its own list spine so that all functions over
it are plain structural recursions. -/
inductive OutlineSection where
  | mk (heading : String) (level : Int) (target_words : Int)
       (subsections : SectionList) (key_points : List String)
deriving DecidableEq

/-- Spine of `list[OutlineSection]`. -/
inductive SectionList where
  | nil
  | cons (hd : OutlineSection) (tl : SectionList)
deriving DecidableEq
end

/-- `ArticleOutline`. -/
structure ArticleOutline where
  title : String
  sections : SectionList
  faq_questions : List String
  total_target_words : Int
deriving DecidableEq

/-- `SEOValidationCheck`. -/
structure SEOValidationCheck where
  name : String
  passed : Bool
  message : String
  severity : String
deriving DecidableEq

/-- `SEOValidationResult`; `score` is a Python float with bounds
`ge=0.0, le=100.0`, modelled by the `Int` surrogate. -/
structure SEOValidationResult where
  passed : Bool
  score : Int
  checks : List SEOValidationCheck
  issues : List String
deriving DecidableEq

/-- `GeneratedArticle`. -/
structure GeneratedArticle where
  article_markdown : String
  heading_structure : List HeadingNode
  seo_metadata : SEOMetadata
  keyword_analysis : KeywordAnalysis
  internal_links : List InternalLink
  external_references : List ExternalReference
  seo_validation : SEOValidationResult
  word_count : Int
deriving DecidableEq

/-- `JobArtifacts`: the per-step artifact bag. -/
structure JobArtifacts where
  serp_data : Option SerpData
  page_signals : List PageSignals
  theme_analysis : Option ThemeAnalysis
  outline : Option ArticleOutline
  draft_article : Option String
  final_article : Option GeneratedArticle
deriving DecidableEq

/-- The empty artifact bag (`JobArtifacts()` with all defaults). -/
def JobArtifacts.empty : JobArtifacts :=
  ⟨none, [], none, none, none, none⟩

/-- `JobError`: step, message, optional details, timestamp
(`default_factory=datetime.utcnow`). -/
structure JobError where
  step : PipelineStep
  message : String
  details : Option String
  timestamp : Nat
deriving DecidableEq

/-- `Job` aggregate root. Timestamps are clock readings (`Nat`). -/
structure Job where
  job_id : String
  input : JobInput
  status : JobStatus
  current_step : PipelineStep
  created_at : Nat
  updated_at : Nat
  completed_at : Option Nat
  artifacts : JobArtifacts
  error : Option JobError
  retry_count : Nat
deriving DecidableEq

/-- `Job.mark_step`: set the step, stamp `updated_at`; when the step is
`completed`, also set status `completed` and stamp `completed_at` with a
second `utcnow` call. Returns the updated job and advanced clock. -/
def Job.markStep (j : Job) (p : PipelineStep) (clock : Nat) : Job × Nat :=
  let j1 := { j with current_step := p, updated_at := clock }
  if p = PipelineStep.completed then
    ({ j1 with status := JobStatus.completed, completed_at := some (clock + 1) },
      clock + 2)
  else
    (j1, clock + 1)

/-- `Job.mark_failed`: set status `failed`, record a `JobError` whose
timestamp is the first `utcnow` reading, then stamp `updated_at`. -/
def Job.markFailed (j : Job) (p : PipelineStep) (message : String)
    (details : Option String) (clock : Nat) : Job × Nat :=
  ({ j with
      status := JobStatus.failed,
      error := some ⟨p, message, details, clock⟩,
      updated_at := clock + 1 },
    clock + 2)

/-- `Job.mark_running`: set status `running`, stamp `updated_at`. -/
def Job.markRunning (j : Job) (clock : Nat) : Job × Nat :=
  ({ j with status := JobStatus.running, updated_at := clock }, clock + 1)

/-! ## Orchestrator (`app/pipeline/orchestrator.py`) -/

/-- A Python exception: its `str()` message and its `repr()` string. -/
structure Exc where
  message : String
  reprS : String
deriving DecidableEq

/-- `repr` of a `ValueError` raised with a single message argument. -/
def valueError (m : String) : Exc :=
  ⟨m, "ValueError(" ++ m ++ ")"⟩

/-- `PipelineOrchestrator.STEP_ORDER`. -/
def stepOrder : List PipelineStep :=
  [PipelineStep.created, PipelineStep.serp_analysis, PipelineStep.theme_extraction,
   PipelineStep.outline_generation, PipelineStep.article_generation,
   PipelineStep.seo_validation, PipelineStep.completed]

/-- `STEP_ORDER.index(p)`. -/
def stepIdx : PipelineStep → Nat
  | .created => 0
  | .serp_analysis => 1
  | .theme_extraction => 2
  | .outline_generation => 3
  | .article_generation => 4
  | .seo_validation => 5
  | .completed => 6

/-- `STEP_ORDER[i]` for `i ≤ 6` (out-of-range values are unused). -/
def stepAt : Nat → PipelineStep
  | 0 => .created
  | 1 => .serp_analysis
  | 2 => .theme_extraction
  | 3 => .outline_generation
  | 4 => .article_generation
  | 5 => .seo_validation
  | _ => .completed

/-- The injected step implementations, with the exact call shapes used by
`_execute_step`; each call either returns the artifact or raises. -/
structure StepBehavior where
  serp : String → Except Exc SerpData
  theme : String → SerpData → Except Exc ThemeAnalysis
  outline : String → ThemeAnalysis → Int → String → Except Exc ArticleOutline
  article : String → ArticleOutline → Option ThemeAnalysis → Int → String →
      Except Exc String
  seo : String → ArticleOutline → String → Int → Except Exc GeneratedArticle

/-- `PipelineOrchestrator._execute_step`.  Upstream-artifact precondition
checks use Python truthiness: a missing model is falsy, and for the draft
article (a `str`) the empty string is falsy as well. -/
def execStep (b : StepBehavior) (j : Job) : PipelineStep → Except Exc Job
  | .serp_analysis =>
      match b.serp j.input.topic with
      | .error e => .error e
      | .ok d =>
          .ok { j with artifacts := { j.artifacts with serp_data := some d } }
  | .theme_extraction =>
      match j.artifacts.serp_data with
      | none => .error (valueError "SERP data required for theme extraction")
      | some sd =>
          match b.theme j.input.topic sd with
          | .error e => .error e
          | .ok t =>
              .ok { j with artifacts := { j.artifacts with theme_analysis := some t } }
  | .outline_generation =>
      match j.artifacts.theme_analysis with
      | none => .error (valueError "Theme analysis required for outline generation")
      | some t =>
          match b.outline j.input.topic t j.input.word_count j.input.language with
          | .error e => .error e
          | .ok o =>
              .ok { j with artifacts := { j.artifacts with outline := some o } }
  | .article_generation =>
      match j.artifacts.outline with
      | none => .error (valueError "Outline required for article generation")
      | some o =>
          match b.article j.input.topic o j.artifacts.theme_analysis
              j.input.word_count j.input.language with
          | .error e => .error e
          | .ok d =>
              .ok { j with artifacts := { j.artifacts with draft_article := some d } }
  | .seo_validation =>
      match j.artifacts.draft_article, j.artifacts.outline with
      | some d, some o =>
          if d = "" then
            .error (valueError "Draft article required for SEO validation")
          else
            match b.seo d o j.input.topic j.input.word_count with
            | .error e => .error e
            | .ok fa =>
                .ok { j with artifacts := { j.artifacts with final_article := some fa } }
      | _, _ => .error (valueError "Draft article required for SEO validation")
  | .completed => .ok { j with status := JobStatus.completed }
  | .created => .ok j

/-- The orchestrator's observable state: the in-memory job, the `utcnow`
clock, and the sequence of snapshots written to the job store (the
checkpoint chain), in order. -/
structure OrchState where
  job : Job
  clock : Nat
  saves : List Job

/-- `job_store.save(job)` as seen from the orchestrator: stamps
`updated_at`, then appends the record to the durable chain. -/
def jsSave (s : OrchState) : OrchState :=
  let j := { s.job with updated_at := s.clock }
  { job := j, clock := s.clock + 1, saves := s.saves ++ [j] }

/-- `job.mark_running()` lifted to the orchestrator state. -/
def stRunning (s : OrchState) : OrchState :=
  let (j, c) := s.job.markRunning s.clock
  { s with job := j, clock := c }

/-- `PipelineOrchestrator._checkpoint`: `mark_step` then save. -/
def checkpoint (s : OrchState) (p : PipelineStep) : OrchState :=
  let (j, c) := s.job.markStep p s.clock
  jsSave { s with job := j, clock := c }

/-- `job.mark_failed(step, message, details)` lifted to the state. -/
def stFailed (s : OrchState) (p : PipelineStep) (e : Exc) : OrchState :=
  let (j, c) := s.job.markFailed p e.message (some e.reprS) s.clock
  { s with job := j, clock := c }

/-- The `for i in range(start_index, len(STEP_ORDER) - 1)` loop body of
`PipelineOrchestrator.run`, over the list of remaining loop indices.
On an exception the loop aborts and the exception propagates. -/
def runSteps (b : StepBehavior) (s : OrchState) : List Nat → OrchState × Option Exc
  | [] => (s, none)
  | i :: rest =>
      let nextStep := stepAt (i + 1)
      match execStep b s.job nextStep with
      | .error e => (s, some e)
      | .ok j' =>
          let s' := checkpoint { s with job := j' } nextStep
          if nextStep = PipelineStep.completed then (s', none)
          else runSteps b s' rest

/-- `PipelineOrchestrator.run` (the `on_progress` callback is `None`):
mark running, save, then execute the remaining steps; on an exception,
`mark_failed` at the current (not advanced) step, save, and re-raise.
The second component is the re-raised exception, if any. -/
def run (b : StepBehavior) (s0 : OrchState) : OrchState × Option Exc :=
  let s := jsSave (stRunning s0)
  let start := stepIdx s.job.current_step
  match runSteps b s (List.range' start (6 - start)) with
  | (s1, none) => (s1, none)
  | (s1, some e) =>
      let s2 := jsSave (stFailed s1 s1.job.current_step e)
      (s2, some e)

/-- Outcome of `PipelineOrchestrator.resume`. The two `ValueError` branches
are distinguished as the spec's `NotFound` and `InvalidState`. -/
inductive ResumeOutcome where
  | notFound
  | invalidState (s : JobStatus)
  | done (j : Job)
  | ran (st : OrchState) (err : Option Exc)

/-- `PipelineOrchestrator.resume`: `got` is the result of
`job_store.get(job_id)`. -/
def resume (b : StepBehavior) (got : Option Job) (clock : Nat) : ResumeOutcome :=
  match got with
  | none => ResumeOutcome.notFound
  | some job =>
      if job.status = JobStatus.completed then ResumeOutcome.done job
      else if job.status ≠ JobStatus.failed ∧ job.status ≠ JobStatus.running then
        ResumeOutcome.invalidState job.status
      else
        let job' := { job with error := none, retry_count := job.retry_count + 1 }
        let (st, err) := run b { job := job', clock := clock, saves := [] }
        ResumeOutcome.ran st err

/-! ## Checkpoint-chain invariant -/

/-- Whether the artifact belonging to the step at index `n` of the fixed
order is present in the bag (`created` and `completed` own no artifact). -/
def presentAt (a : JobArtifacts) : Nat → Bool
  | 1 => a.serp_data.isSome
  | 2 => a.theme_analysis.isSome
  | 3 => a.outline.isSome
  | 4 => a.draft_article.isSome
  | 5 => a.final_article.isSome
  | _ => false

/-- The artifact bag holds exactly the artifacts of the steps up to and
including `current_step`. -/
def chainInv (j : Job) : Bool :=
  [1, 2, 3, 4, 5].all fun n =>
    presentAt j.artifacts n = decide (n ≤ stepIdx j.current_step)

/-- Index of the highest artifact-bearing step whose artifact is present
(0, the index of `created`, when none is). -/
def highestArtifact (j : Job) : Nat :=
  if presentAt j.artifacts 5 then 5
  else if presentAt j.artifacts 4 then 4
  else if presentAt j.artifacts 3 then 3
  else if presentAt j.artifacts 2 then 2
  else if presentAt j.artifacts 1 then 1
  else 0

/-- Artifact preservation: every artifact present in `a` is present with
the same value in `b`. -/
def artLE (a b : JobArtifacts) : Prop :=
  (a.serp_data.isSome → b.serp_data = a.serp_data) ∧
  (a.theme_analysis.isSome → b.theme_analysis = a.theme_analysis) ∧
  (a.outline.isSome → b.outline = a.outline) ∧
  (a.draft_article.isSome → b.draft_article = a.draft_article) ∧
  (a.final_article.isSome → b.final_article = a.final_article)

/-! ## JSON values

`Job.model_dump_json` / `Job.model_validate` are modelled over parsed JSON
values.  `Json` carries its own array and object spines so that all
functions over it are plain structural recursions. -/

mutual
/-- A JSON value.  Python numbers (ints, datetimes-as-clock-readings, and
the `Int` float surrogates) are all carried by `num`. -/
inductive Json where
  | null
  | bool (b : Bool)
  | num (n : Int)
  | str (s : String)
  | arr (a : JsonArr)
  | obj (o : JsonObj)
deriving DecidableEq

/-- Spine of a JSON array. -/
inductive JsonArr where
  | nil
  | cons (hd : Json) (tl : JsonArr)
deriving DecidableEq

/-- Spine of a JSON object (ordered key-value fields). -/
inductive JsonObj where
  | nil
  | cons (key : String) (val : Json) (tl : JsonObj)
deriving DecidableEq
end

/-- First binding of `key` in a JSON object, if any. -/
def JsonObj.lookup : JsonObj → String → Option Json
  | .nil, _ => none
  | .cons k v tl, key => if k = key then some v else tl.lookup key

/-- Read a string value. -/
def Json.asStr : Json → Option String
  | .str s => some s
  | _ => none

/-- Read an integer value. -/
def Json.asInt : Json → Option Int
  | .num n => some n
  | _ => none

/-- Read a non-negative integer value. -/
def Json.asNat : Json → Option Nat
  | .num n => if 0 ≤ n then some n.toNat else none
  | _ => none

/-- Read a boolean value. -/
def Json.asBool : Json → Option Bool
  | .bool b => some b
  | _ => none

/-- Encode a list elementwise. -/
def encodeListWith (f : α → Json) : List α → JsonArr
  | [] => .nil
  | x :: xs => .cons (f x) (encodeListWith f xs)

/-- Decode a JSON array elementwise. -/
def decodeListWith (g : Json → Option α) : JsonArr → Option (List α)
  | .nil => some []
  | .cons v tl => do
      let x ← g v
      let xs ← decodeListWith g tl
      pure (x :: xs)

/-- Encode an optional value (`None` becomes `null`). -/
def encodeOptWith (f : α → Json) : Option α → Json
  | none => .null
  | some x => f x

/-- Decode an optional value (`null` becomes `None`). -/
def decodeOptWith (g : Json → Option α) : Json → Option (Option α)
  | .null => some none
  | v => (g v).map some

/-- Encode a `dict[str, int]`. -/
def encodePairs : List (String × Int) → JsonObj
  | [] => .nil
  | (k, n) :: r => .cons k (.num n) (encodePairs r)

/-- Decode a `dict[str, int]`. -/
def decodePairs : JsonObj → Option (List (String × Int))
  | .nil => some []
  | .cons k v tl => do
      let n ← v.asInt
      let r ← decodePairs tl
      pure ((k, n) :: r)

/-! ## Serialization (`model_dump_json` / `model_validate`)

Encoders emit every field in declaration order; decoders look fields up by
key, apply the model defaults for missing optional-with-default fields, and
enforce the pydantic `Field` constraints (returning `none` on a violation,
as `model_validate` raises). -/

/-- `JobStatus` string values (`use_enum_values`). -/
def statusToStr : JobStatus → String
  | .pending => "pending"
  | .running => "running"
  | .completed => "completed"
  | .failed => "failed"

/-- Parse a `JobStatus` value. -/
def statusOfStr : String → Option JobStatus
  | "pending" => some .pending
  | "running" => some .running
  | "completed" => some .completed
  | "failed" => some .failed
  | _ => none

/-- `PipelineStep` string values. -/
def stepToStr : PipelineStep → String
  | .created => "created"
  | .serp_analysis => "serp_analysis"
  | .theme_extraction => "theme_extraction"
  | .outline_generation => "outline_generation"
  | .article_generation => "article_generation"
  | .seo_validation => "seo_validation"
  | .completed => "completed"

/-- Parse a `PipelineStep` value. -/
def stepOfStr : String → Option PipelineStep
  | "created" => some .created
  | "serp_analysis" => some .serp_analysis
  | "theme_extraction" => some .theme_extraction
  | "outline_generation" => some .outline_generation
  | "article_generation" => some .article_generation
  | "seo_validation" => some .seo_validation
  | "completed" => some .completed
  | _ => none

/-- `JobInput(topic=…, word_count=…, language=…)`: pydantic construction
with validation; `none` arguments are omitted fields taking their
defaults (`word_count=1500`, `language="en"`). -/
def mkJobInput (topic : String) (word_count : Option Int)
    (language : Option String) : Option JobInput :=
  if 3 ≤ topic.length ∧ topic.length ≤ 500 then
    let wc := word_count.getD 1500
    if 500 ≤ wc ∧ wc ≤ 5000 then
      some ⟨topic, wc, language.getD "en"⟩
    else none
  else none

/-- Encode a `JobInput`. -/
def encodeJobInput (i : JobInput) : Json :=
  .obj (.cons "topic" (.str i.topic)
    (.cons "word_count" (.num i.word_count)
      (.cons "language" (.str i.language) .nil)))

/-- Decode a `JobInput` (via the pydantic constructor). -/
def decodeJobInput (j : Json) : Option JobInput :=
  match j with
  | .obj o => do
      let t ← (o.lookup "topic").bind Json.asStr
      let wc ← match o.lookup "word_count" with
        | none => some none
        | some v => (v.asInt).map some
      let lang ← match o.lookup "language" with
        | none => some none
        | some v => (v.asStr).map some
      mkJobInput t wc lang
  | _ => none

/-- Encode a `SerpResult`. -/
def encodeSerpResult (r : SerpResult) : Json :=
  .obj (.cons "rank" (.num r.rank)
    (.cons "url" (.str r.url)
      (.cons "title" (.str r.title)
        (.cons "snippet" (.str r.snippet) .nil))))

/-- Decode a `SerpResult` (rank has bounds `ge=1, le=100`). -/
def decodeSerpResult (j : Json) : Option SerpResult :=
  match j with
  | .obj o => do
      let rank ← (o.lookup "rank").bind Json.asInt
      if 1 ≤ rank ∧ rank ≤ 100 then
        let url ← (o.lookup "url").bind Json.asStr
        let title ← (o.lookup "title").bind Json.asStr
        let snippet ← (o.lookup "snippet").bind Json.asStr
        pure ⟨rank, url, title, snippet⟩
      else none
  | _ => none

/-- Encode a `PeopleAlsoAsk`. -/
def encodePaa (p : PeopleAlsoAsk) : Json :=
  .obj (.cons "question" (.str p.question)
    (.cons "snippet" (.str p.snippet) .nil))

/-- Decode a `PeopleAlsoAsk`. -/
def decodePaa (j : Json) : Option PeopleAlsoAsk :=
  match j with
  | .obj o => do
      let q ← (o.lookup "question").bind Json.asStr
      let s ← (o.lookup "snippet").bind Json.asStr
      pure ⟨q, s⟩
  | _ => none

/-- Encode a `SerpData`. -/
def encodeSerpData (d : SerpData) : Json :=
  .obj (.cons "query" (.str d.query)
    (.cons "results" (.arr (encodeListWith encodeSerpResult d.results))
      (.cons "people_also_ask" (.arr (encodeListWith encodePaa d.people_also_ask))
        (.cons "related_searches" (.arr (encodeListWith Json.str d.related_searches))
          .nil))))

/-- Decode a `SerpData`. -/
def decodeSerpData (j : Json) : Option SerpData :=
  match j with
  | .obj o => do
      let q ← (o.lookup "query").bind Json.asStr
      let rs ← match o.lookup "results" with
        | some (.arr a) => decodeListWith decodeSerpResult a
        | _ => none
      let paa ← match o.lookup "people_also_ask" with
        | some (.arr a) => decodeListWith decodePaa a
        | _ => none
      let rel ← match o.lookup "related_searches" with
        | some (.arr a) => decodeListWith Json.asStr a
        | _ => none
      pure ⟨q, rs, paa, rel⟩
  | _ => none

/-- Encode a `PageSignals`. -/
def encodePageSignals (p : PageSignals) : Json :=
  .obj (.cons "url" (.str p.url)
    (.cons "title" (.str p.title)
      (.cons "meta_description" (.str p.meta_description)
        (.cons "h1" (.str p.h1)
          (.cons "h2_headings" (.arr (encodeListWith Json.str p.h2_headings))
            (.cons "h3_headings" (.arr (encodeListWith Json.str p.h3_headings))
              (.cons "word_count" (.num p.word_count)
                (.cons "fetch_success" (.bool p.fetch_success)
                  (.cons "error" (encodeOptWith Json.str p.error) .nil)))))))))

/-- Decode a `PageSignals`. -/
def decodePageSignals (j : Json) : Option PageSignals :=
  match j with
  | .obj o => do
      let url ← (o.lookup "url").bind Json.asStr
      let title ← (o.lookup "title").bind Json.asStr
      let md ← (o.lookup "meta_description").bind Json.asStr
      let h1 ← (o.lookup "h1").bind Json.asStr
      let h2 ← match o.lookup "h2_headings" with
        | some (.arr a) => decodeListWith Json.asStr a
        | _ => none
      let h3 ← match o.lookup "h3_headings" with
        | some (.arr a) => decodeListWith Json.asStr a
        | _ => none
      let wc ← (o.lookup "word_count").bind Json.asInt
      let fs ← (o.lookup "fetch_success").bind Json.asBool
      let err ← (o.lookup "error").bind (decodeOptWith Json.asStr)
      pure ⟨url, title, md, h1, h2, h3, wc, fs, err⟩
  | _ => none

/-- Encode a `ThemeAnalysis`. -/
def encodeTheme (t : ThemeAnalysis) : Json :=
  .obj (.cons "search_intent" (.str t.search_intent)
    (.cons "primary_themes" (.arr (encodeListWith Json.str t.primary_themes))
      (.cons "common_sections" (.arr (encodeListWith Json.str t.common_sections))
        (.cons "content_gaps" (.arr (encodeListWith Json.str t.content_gaps))
          (.cons "suggested_angles" (.arr (encodeListWith Json.str t.suggested_angles))
            (.cons "faq_questions" (.arr (encodeListWith Json.str t.faq_questions))
              .nil))))))

/-- Decode a `ThemeAnalysis`. -/
def decodeTheme (j : Json) : Option ThemeAnalysis :=
  match j with
  | .obj o => do
      let si ← (o.lookup "search_intent").bind Json.asStr
      let pt ← match o.lookup "primary_themes" with
        | some (.arr a) => decodeListWith Json.asStr a
        | _ => none
      let cs ← match o.lookup "common_sections" with
        | some (.arr a) => decodeListWith Json.asStr a
        | _ => none
      let cg ← match o.lookup "content_gaps" with
        | some (.arr a) => decodeListWith Json.asStr a
        | _ => none
      let sa ← match o.lookup "suggested_angles" with
        | some (.arr a) => decodeListWith Json.asStr a
        | _ => none
      let fq ← match o.lookup "faq_questions" with
        | some (.arr a) => decodeListWith Json.asStr a
        | _ => none
      pure ⟨si, pt, cs, cg, sa, fq⟩
  | _ => none

mutual
/-- Encode an `OutlineSection`. -/
def encodeSection : OutlineSection → Json
  | .mk h lv tw subs kp =>
      .obj (.cons "heading" (.str h)
        (.cons "level" (.num lv)
          (.cons "target_words" (.num tw)
            (.cons "subsections" (.arr (encodeSections subs))
              (.cons "key_points" (.arr (encodeListWith Json.str kp)) .nil)))))

/-- Encode a list of `OutlineSection`s. -/
def encodeSections : SectionList → JsonArr
  | .nil => .nil
  | .cons s tl => .cons (encodeSection s) (encodeSections tl)
end

/-- Accumulator for decoding an `OutlineSection` object; `none` fields were
not seen yet and will take the model defaults. -/
structure SecAcc where
  heading : Option String
  level : Option Int
  target_words : Option Int
  subsections : Option SectionList
  key_points : Option (List String)

mutual
/-- Decode an `OutlineSection`: collect the fields, then apply the model
defaults (`level=2`, `target_words=200`, `subsections=[]`,
`key_points=[]`); `heading` is required. -/
def decodeSection : Json → Option OutlineSection
  | .obj o => do
      let acc ← decodeSecObj o
      let h ← acc.heading
      pure (.mk h (acc.level.getD 2) (acc.target_words.getD 200)
        (acc.subsections.getD .nil) (acc.key_points.getD []))
  | _ => none

/-- Walk the fields of an `OutlineSection` object (later duplicates of a
key win, matching `dict` construction from JSON text). -/
def decodeSecObj : JsonObj → Option SecAcc
  | .nil => some ⟨none, none, none, none, none⟩
  | .cons k v tl => do
      let acc ← decodeSecObj tl
      if k = "heading" then do
        let s ← v.asStr
        pure { acc with heading := some s }
      else if k = "level" then do
        let n ← v.asInt
        pure { acc with level := some n }
      else if k = "target_words" then do
        let n ← v.asInt
        pure { acc with target_words := some n }
      else if k = "subsections" then
        match v with
        | .arr a => do
            let ss ← decodeSections a
            pure { acc with subsections := some ss }
        | _ => none
      else if k = "key_points" then
        match v with
        | .arr a => do
            let kp ← decodeListWith Json.asStr a
            pure { acc with key_points := some kp }
        | _ => none
      else pure acc

/-- Decode an array of `OutlineSection`s. -/
def decodeSections : JsonArr → Option SectionList
  | .nil => some .nil
  | .cons v tl => do
      let s ← decodeSection v
      let r ← decodeSections tl
      pure (.cons s r)
end

/-- Encode an `ArticleOutline`. -/
def encodeOutline (o : ArticleOutline) : Json :=
  .obj (.cons "title" (.str o.title)
    (.cons "sections" (.arr (encodeSections o.sections))
      (.cons "faq_questions" (.arr (encodeListWith Json.str o.faq_questions))
        (.cons "total_target_words" (.num o.total_target_words) .nil))))

/-- Decode an `ArticleOutline`. -/
def decodeOutline (j : Json) : Option ArticleOutline :=
  match j with
  | .obj o => do
      let t ← (o.lookup "title").bind Json.asStr
      let ss ← match o.lookup "sections" with
        | some (.arr a) => decodeSections a
        | _ => none
      let fq ← match o.lookup "faq_questions" with
        | some (.arr a) => decodeListWith Json.asStr a
        | _ => none
      let tw ← (o.lookup "total_target_words").bind Json.asInt
      pure ⟨t, ss, fq, tw⟩
  | _ => none

/-- Encode an `SEOMetadata`. -/
def encodeMeta (m : SEOMetadata) : Json :=
  .obj (.cons "title_tag" (.str m.title_tag)
    (.cons "meta_description" (.str m.meta_description)
      (.cons "slug" (.str m.slug)
        (.cons "primary_keyword" (.str m.primary_keyword)
          (.cons "secondary_keywords"
            (.arr (encodeListWith Json.str m.secondary_keywords)) .nil)))))

/-- Decode an `SEOMetadata`. -/
def decodeMeta (j : Json) : Option SEOMetadata :=
  match j with
  | .obj o => do
      let tt ← (o.lookup "title_tag").bind Json.asStr
      let md ← (o.lookup "meta_description").bind Json.asStr
      let sl ← (o.lookup "slug").bind Json.asStr
      let pk ← (o.lookup "primary_keyword").bind Json.asStr
      let sk ← match o.lookup "secondary_keywords" with
        | some (.arr a) => decodeListWith Json.asStr a
        | _ => none
      pure ⟨tt, md, sl, pk, sk⟩
  | _ => none

/-- Encode a `KeywordAnalysis`. -/
def encodeKw (k : KeywordAnalysis) : Json :=
  .obj (.cons "primary_keyword" (.str k.primary_keyword)
    (.cons "primary_count" (.num k.primary_count)
      (.cons "primary_density" (.num k.primary_density)
        (.cons "secondary_keywords"
          (.arr (encodeListWith Json.str k.secondary_keywords))
          (.cons "secondary_counts" (.obj (encodePairs k.secondary_counts)) .nil)))))

/-- Decode a `KeywordAnalysis`. -/
def decodeKw (j : Json) : Option KeywordAnalysis :=
  match j with
  | .obj o => do
      let pk ← (o.lookup "primary_keyword").bind Json.asStr
      let pc ← (o.lookup "primary_count").bind Json.asInt
      let pd ← (o.lookup "primary_density").bind Json.asInt
      let sk ← match o.lookup "secondary_keywords" with
        | some (.arr a) => decodeListWith Json.asStr a
        | _ => none
      let sc ← match o.lookup "secondary_counts" with
        | some (.obj m) => decodePairs m
        | _ => none
      pure ⟨pk, pc, pd, sk, sc⟩
  | _ => none

/-- Encode an `InternalLink`. -/
def encodeILink (l : InternalLink) : Json :=
  .obj (.cons "anchor_text" (.str l.anchor_text)
    (.cons "target_topic" (.str l.target_topic)
      (.cons "placement_hint" (.str l.placement_hint) .nil)))

/-- Decode an `InternalLink`. -/
def decodeILink (j : Json) : Option InternalLink :=
  match j with
  | .obj o => do
      let a ← (o.lookup "anchor_text").bind Json.asStr
      let t ← (o.lookup "target_topic").bind Json.asStr
      let p ← (o.lookup "placement_hint").bind Json.asStr
      pure ⟨a, t, p⟩
  | _ => none

/-- Encode an `ExternalReference`. -/
def encodeERef (r : ExternalReference) : Json :=
  .obj (.cons "url" (.str r.url)
    (.cons "source_name" (.str r.source_name)
      (.cons "why_authoritative" (.str r.why_authoritative)
        (.cons "placement_hint" (.str r.placement_hint) .nil))))

/-- Decode an `ExternalReference`. -/
def decodeERef (j : Json) : Option ExternalReference :=
  match j with
  | .obj o => do
      let u ← (o.lookup "url").bind Json.asStr
      let s ← (o.lookup "source_name").bind Json.asStr
      let w ← (o.lookup "why_authoritative").bind Json.asStr
      let p ← (o.lookup "placement_hint").bind Json.asStr
      pure ⟨u, s, w, p⟩
  | _ => none

/-- Encode a `HeadingNode`. -/
def encodeHeading (h : HeadingNode) : Json :=
  .obj (.cons "level" (.num h.level)
    (.cons "text" (.str h.text)
      (.cons "target_words" (.num h.target_words) .nil)))

/-- Decode a `HeadingNode` (level has bounds `ge=1, le=6`). -/
def decodeHeading (j : Json) : Option HeadingNode :=
  match j with
  | .obj o => do
      let lv ← (o.lookup "level").bind Json.asInt
      if 1 ≤ lv ∧ lv ≤ 6 then
        let t ← (o.lookup "text").bind Json.asStr
        let tw ← (o.lookup "target_words").bind Json.asInt
        pure ⟨lv, t, tw⟩
      else none
  | _ => none

/-- Encode an `SEOValidationCheck`. -/
def encodeCheck (c : SEOValidationCheck) : Json :=
  .obj (.cons "name" (.str c.name)
    (.cons "passed" (.bool c.passed)
      (.cons "message" (.str c.message)
        (.cons "severity" (.str c.severity) .nil))))

/-- Decode an `SEOValidationCheck`. -/
def decodeCheck (j : Json) : Option SEOValidationCheck :=
  match j with
  | .obj o => do
      let n ← (o.lookup "name").bind Json.asStr
      let p ← (o.lookup "passed").bind Json.asBool
      let m ← (o.lookup "message").bind Json.asStr
      let sv ← (o.lookup "severity").bind Json.asStr
      pure ⟨n, p, m, sv⟩
  | _ => none

/-- Encode an `SEOValidationResult`. -/
def encodeValidation (v : SEOValidationResult) : Json :=
  .obj (.cons "passed" (.bool v.passed)
    (.cons "score" (.num v.score)
      (.cons "checks" (.arr (encodeListWith encodeCheck v.checks))
        (.cons "issues" (.arr (encodeListWith Json.str v.issues)) .nil))))

/-- Decode an `SEOValidationResult` (score has bounds `ge=0, le=100`). -/
def decodeValidation (j : Json) : Option SEOValidationResult :=
  match j with
  | .obj o => do
      let p ← (o.lookup "passed").bind Json.asBool
      let sc ← (o.lookup "score").bind Json.asInt
      if 0 ≤ sc ∧ sc ≤ 100 then
        let cs ← match o.lookup "checks" with
          | some (.arr a) => decodeListWith decodeCheck a
          | _ => none
        let is ← match o.lookup "issues" with
          | some (.arr a) => decodeListWith Json.asStr a
          | _ => none
        pure ⟨p, sc, cs, is⟩
      else none
  | _ => none

/-- Encode a `GeneratedArticle`. -/
def encodeArticle (g : GeneratedArticle) : Json :=
  .obj (.cons "article_markdown" (.str g.article_markdown)
    (.cons "heading_structure" (.arr (encodeListWith encodeHeading g.heading_structure))
      (.cons "seo_metadata" (encodeMeta g.seo_metadata)
        (.cons "keyword_analysis" (encodeKw g.keyword_analysis)
          (.cons "internal_links" (.arr (encodeListWith encodeILink g.internal_links))
            (.cons "external_references" (.arr (encodeListWith encodeERef g.external_references))
              (.cons "seo_validation" (encodeValidation g.seo_validation)
                (.cons "word_count" (.num g.word_count) .nil))))))))

/-- Decode a `GeneratedArticle`. -/
def decodeArticle (j : Json) : Option GeneratedArticle :=
  match j with
  | .obj o => do
      let am ← (o.lookup "article_markdown").bind Json.asStr
      let hs ← match o.lookup "heading_structure" with
        | some (.arr a) => decodeListWith decodeHeading a
        | _ => none
      let sm ← (o.lookup "seo_metadata").bind decodeMeta
      let ka ← (o.lookup "keyword_analysis").bind decodeKw
      let il ← match o.lookup "internal_links" with
        | some (.arr a) => decodeListWith decodeILink a
        | _ => none
      let er ← match o.lookup "external_references" with
        | some (.arr a) => decodeListWith decodeERef a
        | _ => none
      let sv ← (o.lookup "seo_validation").bind decodeValidation
      let wc ← (o.lookup "word_count").bind Json.asInt
      pure ⟨am, hs, sm, ka, il, er, sv, wc⟩
  | _ => none

/-- Encode a `JobArtifacts`. -/
def encodeArtifacts (a : JobArtifacts) : Json :=
  .obj (.cons "serp_data" (encodeOptWith encodeSerpData a.serp_data)
    (.cons "page_signals" (.arr (encodeListWith encodePageSignals a.page_signals))
      (.cons "theme_analysis" (encodeOptWith encodeTheme a.theme_analysis)
        (.cons "outline" (encodeOptWith encodeOutline a.outline)
          (.cons "draft_article" (encodeOptWith Json.str a.draft_article)
            (.cons "final_article" (encodeOptWith encodeArticle a.final_article)
              .nil))))))

/-- Decode a `JobArtifacts`. -/
def decodeArtifacts (j : Json) : Option JobArtifacts :=
  match j with
  | .obj o => do
      let sd ← (o.lookup "serp_data").bind (decodeOptWith decodeSerpData)
      let ps ← match o.lookup "page_signals" with
        | some (.arr a) => decodeListWith decodePageSignals a
        | _ => none
      let ta ← (o.lookup "theme_analysis").bind (decodeOptWith decodeTheme)
      let ol ← (o.lookup "outline").bind (decodeOptWith decodeOutline)
      let da ← (o.lookup "draft_article").bind (decodeOptWith Json.asStr)
      let fa ← (o.lookup "final_article").bind (decodeOptWith decodeArticle)
      pure ⟨sd, ps, ta, ol, da, fa⟩
  | _ => none

/-- Encode a clock reading (`Nat`). -/
def natJson (n : Nat) : Json := .num (Int.ofNat n)

/-- Encode a `JobError`. -/
def encodeJobErr (e : JobError) : Json :=
  .obj (.cons "step" (.str (stepToStr e.step))
    (.cons "message" (.str e.message)
      (.cons "details" (encodeOptWith Json.str e.details)
        (.cons "timestamp" (natJson e.timestamp) .nil))))

/-- Decode a `JobError`. -/
def decodeJobErr (j : Json) : Option JobError :=
  match j with
  | .obj o => do
      let st ← (o.lookup "step").bind Json.asStr
      let step ← stepOfStr st
      let m ← (o.lookup "message").bind Json.asStr
      let d ← (o.lookup "details").bind (decodeOptWith Json.asStr)
      let ts ← (o.lookup "timestamp").bind Json.asNat
      pure ⟨step, m, d, ts⟩
  | _ => none

/-- Encode a `Job` (`model_dump_json`, with `use_enum_values` and datetimes
modelled as clock readings). -/
def encodeJob (j : Job) : Json :=
  .obj (.cons "job_id" (.str j.job_id)
    (.cons "input" (encodeJobInput j.input)
      (.cons "status" (.str (statusToStr j.status))
        (.cons "current_step" (.str (stepToStr j.current_step))
          (.cons "created_at" (natJson j.created_at)
            (.cons "updated_at" (natJson j.updated_at)
              (.cons "completed_at"
                (encodeOptWith natJson j.completed_at)
                (.cons "artifacts" (encodeArtifacts j.artifacts)
                  (.cons "error" (encodeOptWith encodeJobErr j.error)
                    (.cons "retry_count" (natJson j.retry_count)
                      .nil))))))))))

/-- Decode a `Job` (`Job.model_validate`). -/
def decodeJob (j : Json) : Option Job :=
  match j with
  | .obj o => do
      let id ← (o.lookup "job_id").bind Json.asStr
      let inp ← (o.lookup "input").bind decodeJobInput
      let st ← ((o.lookup "status").bind Json.asStr).bind statusOfStr
      let cs ← ((o.lookup "current_step").bind Json.asStr).bind stepOfStr
      let ca ← (o.lookup "created_at").bind Json.asNat
      let ua ← (o.lookup "updated_at").bind Json.asNat
      let co ← (o.lookup "completed_at").bind (decodeOptWith Json.asNat)
      let ar ← (o.lookup "artifacts").bind decodeArtifacts
      let er ← (o.lookup "error").bind (decodeOptWith decodeJobErr)
      let rc ← (o.lookup "retry_count").bind Json.asNat
      pure ⟨id, inp, st, cs, ca, ua, co, ar, er, rc⟩
  | _ => none

/-! ## Model-constraint validity

A record constructed through the pydantic models satisfies every `Field`
constraint; these predicates capture exactly the constraints the decoders
enforce, and hold for every reachable job state. -/

/-- `JobInput` field constraints. -/
def inputValid (i : JobInput) : Bool :=
  decide (3 ≤ i.topic.length) && decide (i.topic.length ≤ 500) &&
  decide (500 ≤ i.word_count) && decide (i.word_count ≤ 5000)

/-- `SerpResult` field constraints. -/
def serpResultValid (r : SerpResult) : Bool :=
  decide (1 ≤ r.rank) && decide (r.rank ≤ 100)

/-- `SerpData` field constraints. -/
def serpDataValid (d : SerpData) : Bool :=
  d.results.all serpResultValid

/-- `HeadingNode` field constraints. -/
def headingValid (h : HeadingNode) : Bool :=
  decide (1 ≤ h.level) && decide (h.level ≤ 6)

/-- `SEOValidationResult` field constraints. -/
def validationValid (v : SEOValidationResult) : Bool :=
  decide (0 ≤ v.score) && decide (v.score ≤ 100)

/-- `GeneratedArticle` field constraints. -/
def articleValid (g : GeneratedArticle) : Bool :=
  g.heading_structure.all headingValid && validationValid g.seo_validation

/-- `JobArtifacts` field constraints. -/
def artifactsValid (a : JobArtifacts) : Bool :=
  (match a.serp_data with | none => true | some d => serpDataValid d) &&
  (match a.final_article with | none => true | some g => articleValid g)

/-- `Job` field constraints (all nested constraints). -/
def jobValid (j : Job) : Bool :=
  inputValid j.input && artifactsValid j.artifacts

/-! ## Job store (`app/persistence/job_store.py`) -/

/-- Contents of one file: either raw text that does not parse as a job
record (e.g. a freshly created, still-empty temp file) or a parsed JSON
value. -/
inductive FileData where
  | raw (s : String)
  | json (j : Json)
deriving DecidableEq

/-- The storage directory: an association of paths to file contents
(first binding wins; paths are unique in well-formed states). -/
def FS := List (String × FileData)

/-- Content of the file at `p`, if present. -/
def fsLookup (fs : FS) (p : String) : Option FileData :=
  match fs with
  | [] => none
  | (q, d) :: r => if q = p then some d else fsLookup r p

/-- Remove the file at `p`. -/
def fsRemove (fs : FS) (p : String) : FS :=
  match fs with
  | [] => []
  | (q, d) :: r => if q = p then fsRemove r p else (q, d) :: fsRemove r p

/-- Create or replace the file at `p` with content `d`. -/
def fsSet (fs : FS) (p : String) (d : FileData) : FS :=
  (p, d) :: fsRemove fs p

/-- `JobStore._job_path`. -/
def jobPath (dir job_id : String) : String :=
  dir ++ "/" ++ job_id ++ ".json"

/-- Fault injection for `JobStore.save`: the write of the serialized
record to the temp file, or the atomic rename, may raise. -/
inductive SaveFault where
  | ok
  | duringWrite
  | duringRename
deriving DecidableEq

/-- Result of `JobStore.save`: the directory afterwards, and the raised
error, if any (the error propagates to the caller). -/
structure SaveResult where
  fs : FS
  error : Option String

/-- `JobStore.save`: stamp `updated_at`, create a temp file via `mkstemp`
(`tempName` is the fresh name it picked, inside the same directory), write
the full serialized record to it, then atomically rename it over the final
path.  On any failure the temp file is removed and the error re-raised. -/
def storeSave (fs : FS) (dir tempName : String) (fault : SaveFault)
    (j : Job) (now : Nat) : SaveResult :=
  let job := { j with updated_at := now }
  let path := jobPath dir job.job_id
  let tmp := dir ++ "/" ++ tempName
  let fs1 := fsSet fs tmp (FileData.raw "")
  match fault with
  | .duringWrite =>
      { fs := fsRemove fs1 tmp, error := some "write failed" }
  | .duringRename =>
      let fs2 := fsSet fs1 tmp (FileData.json (encodeJob job))
      { fs := fsRemove fs2 tmp, error := some "rename failed" }
  | .ok =>
      let fs2 := fsSet fs1 tmp (FileData.json (encodeJob job))
      { fs := fsSet (fsRemove fs2 tmp) path (FileData.json (encodeJob job)),
        error := none }

/-- `JobStore.get`: load and deserialize; any parse or validation failure
is treated as "not found". -/
def storeGet (fs : FS) (dir job_id : String) : Option Job :=
  match fsLookup fs (jobPath dir job_id) with
  | some (FileData.json v) => decodeJob v
  | some (FileData.raw _) => none
  | none => none

/-- Stable sort of jobs by `created_at` descending (`jobs.sort(key=…,
reverse=True)` is the stable descending sort, which insertion after all
elements with a greater-or-equal key computes). -/
def insertDesc (j : Job) : List Job → List Job
  | [] => [j]
  | x :: xs =>
      if j.created_at ≤ x.created_at then x :: insertDesc j xs
      else j :: x :: xs

/-- Sort a scanned job list by creation time descending, stably. -/
def sortByCreatedDesc (l : List Job) : List Job :=
  l.foldl (fun acc j => insertDesc j acc) []

/-- `JobStore.list_jobs` over the parsed records of the directory scan
(records that fail to parse were already skipped): optional status filter,
sort by `created_at` descending, truncate to `limit`. -/
def listJobs (store : List Job) (status : Option JobStatus) (limit : Nat) :
    List Job :=
  (sortByCreatedDesc (store.filter fun j =>
    match status with
    | none => true
    | some s => decide (j.status = s))).take limit

/-- `JobStore.get_resumable_jobs`: `list_jobs` for `RUNNING` then `FAILED`,
each with the default `limit=100`. -/
def getResumableJobs (store : List Job) : List Job :=
  listJobs store (some JobStatus.running) 100 ++
  listJobs store (some JobStatus.failed) 100

/-! ## Concrete sample data (used by witnesses and counterexamples) -/

/-- A sample SERP artifact. -/
def sampleSerp : SerpData :=
  ⟨"lean theorem proving", [⟨1, "https://a", "A", "s"⟩], [⟨"what is lean", "s"⟩], ["lean 4"]⟩

/-- A sample theme-analysis artifact. -/
def sampleTheme : ThemeAnalysis :=
  ⟨"informational", ["t1"], ["s1"], ["g1"], ["a1"], ["f1"]⟩

/-- A sample outline artifact. -/
def sampleOutline : ArticleOutline :=
  ⟨"T", SectionList.cons (OutlineSection.mk "H" 2 200 SectionList.nil ["k"]) SectionList.nil,
   ["fq"], 1500⟩

/-- A sample final-article artifact. -/
def sampleArticle : GeneratedArticle :=
  ⟨"# T body", [⟨1, "T", 0⟩], ⟨"tt", "md", "slug", "kw", ["k2"]⟩,
   ⟨"kw", 3, 1, ["k2"], [("k2", 2)]⟩, [⟨"a", "t", "p"⟩],
   [⟨"https://b", "B", "w", "p"⟩], ⟨true, 90, [⟨"wc", true, "ok", "info"⟩], []⟩, 1500⟩

/-- Step behavior in which every step succeeds. -/
def okB : StepBehavior where
  serp := fun _ => .ok sampleSerp
  theme := fun _ _ => .ok sampleTheme
  outline := fun _ _ _ _ => .ok sampleOutline
  article := fun _ _ _ _ _ => .ok "draft text"
  seo := fun _ _ _ _ => .ok sampleArticle

/-- The provider exception used by the failing behaviors. -/
def themeExc : Exc := ⟨"API error", "ProviderError(API error)"⟩

/-- Step behavior in which theme extraction raises (after a successful
SERP analysis). -/
def failTheme : StepBehavior :=
  { okB with theme := fun _ _ => .error themeExc }

/-- A freshly created job (`JobStore.create` output shape). -/
def freshJob : Job :=
  { job_id := "abc12345", input := ⟨"lean theorem proving", 1500, "en"⟩,
    status := JobStatus.pending, current_step := PipelineStep.created,
    created_at := 0, updated_at := 0, completed_at := none,
    artifacts := JobArtifacts.empty, error := none, retry_count := 0 }

/-- The job after a fully successful run of the pipeline. -/
def completedJob : Job := (run okB ⟨freshJob, 1, []⟩).1.job

/-- A failed job eligible for resume. -/
def failedJob : Job := (run failTheme ⟨freshJob, 1, []⟩).1.job

/-- The `i`-th running job of the large-store counterexample. -/
def runningJob (i : Nat) : Job :=
  { freshJob with
    job_id := ("job" ++ toString i),
    status := JobStatus.running,
    current_step := PipelineStep.created,
    created_at := i }

/-- A store holding 101 running jobs — one more than the default
`limit=100` of `list_jobs`. -/
def store101 : List Job := (List.range 101).map runningJob

/-- Temp-file name used by the store witnesses. -/
def wTmp : String := ".abc12345_a.tmp"

/-- A one-record directory holding a committed record for `freshJob`. -/
def wFs : FS := [(jobPath "jobs" "abc12345", FileData.json (encodeJob freshJob))]

/-- A small store with one job of each status. -/
def storeW : List Job := [freshJob, runningJob 3, failedJob, completedJob]

/-! ## Proofs -/


theorem decEnc_listWith {α : Type} (g : Json → Option α) (f : α → Json) (l : List α)
    (h : ∀ x ∈ l, g (f x) = some x) :
    decodeListWith g (encodeListWith f l) = some l := by
  induction l with
  | nil => rfl
  | cons x xs ih =>
      simp only [encodeListWith, decodeListWith, h x (by simp), Option.bind_eq_bind,
        Option.some_bind]
      rw [ih (fun y hy => h y (by simp [hy]))]
      rfl

theorem decEnc_str (l : List String) :
    decodeListWith Json.asStr (encodeListWith Json.str l) = some l :=
  decEnc_listWith _ _ l (fun x _ => rfl)

theorem asNat_natJson (n : Nat) : Json.asNat (natJson n) = some n := by
  simp [Json.asNat, natJson]

theorem statusOfStr_toStr (s : JobStatus) : statusOfStr (statusToStr s) = some s := by
  cases s <;> rfl

theorem stepOfStr_toStr (p : PipelineStep) : stepOfStr (stepToStr p) = some p := by
  cases p <;> rfl

theorem decEnc_input (i : JobInput) (h : inputValid i = true) :
    decodeJobInput (encodeJobInput i) = some i := by
  simp only [inputValid, Bool.and_eq_true, decide_eq_true_eq] at h
  obtain ⟨⟨⟨h1, h2⟩, h3⟩, h4⟩ := h
  simp [decodeJobInput, encodeJobInput, JsonObj.lookup, Json.asStr, Json.asInt,
    mkJobInput, h1, h2, h3, h4]

theorem decEnc_serpResult (r : SerpResult) (h : serpResultValid r = true) :
    decodeSerpResult (encodeSerpResult r) = some r := by
  simp only [serpResultValid, Bool.and_eq_true, decide_eq_true_eq] at h
  obtain ⟨h1, h2⟩ := h
  simp [decodeSerpResult, encodeSerpResult, JsonObj.lookup, Json.asStr, Json.asInt, h1, h2]

theorem decEnc_paa (p : PeopleAlsoAsk) : decodePaa (encodePaa p) = some p := by
  simp [decodePaa, encodePaa, JsonObj.lookup, Json.asStr]

theorem decEnc_serpData (d : SerpData) (h : serpDataValid d = true) :
    decodeSerpData (encodeSerpData d) = some d := by
  simp only [serpDataValid, List.all_eq_true] at h
  simp [decodeSerpData, encodeSerpData, JsonObj.lookup,  Json.asStr,
    decEnc_listWith decodeSerpResult encodeSerpResult d.results
      (fun r hr => decEnc_serpResult r (h r hr)),
    decEnc_listWith decodePaa encodePaa d.people_also_ask (fun p _ => decEnc_paa p),
    decEnc_str]



theorem decEnc_opt {α : Type} (g : Json → Option α) (f : α → Json) (o : Option α)
    (hnn : ∀ x, f x ≠ Json.null)
    (h : ∀ x, o = some x → g (f x) = some x) :
    decodeOptWith g (encodeOptWith f o) = some o := by
  cases o with
  | none => rfl
  | some x =>
      have hx := h x rfl
      simp only [encodeOptWith]
      cases hfx : f x with
      | null => exact absurd hfx (hnn x)
      | bool v => rw [hfx] at hx; simp [decodeOptWith, hx]
      | num v => rw [hfx] at hx; simp [decodeOptWith, hx]
      | str v => rw [hfx] at hx; simp [decodeOptWith, hx]
      | arr v => rw [hfx] at hx; simp [decodeOptWith, hx]
      | obj v => rw [hfx] at hx; simp [decodeOptWith, hx]

theorem decEnc_optStr (o : Option String) :
    decodeOptWith Json.asStr (encodeOptWith Json.str o) = some o :=
  decEnc_opt _ _ o (fun x => by simp) (fun x _ => rfl)

theorem decEnc_pageSignals (p : PageSignals) :
    decodePageSignals (encodePageSignals p) = some p := by
  simp [decodePageSignals, encodePageSignals, JsonObj.lookup, Json.asStr, Json.asInt,
    Json.asBool, decEnc_str, decEnc_optStr]

theorem decEnc_theme (t : ThemeAnalysis) : decodeTheme (encodeTheme t) = some t := by
  simp [decodeTheme, encodeTheme, JsonObj.lookup, Json.asStr, decEnc_str]

theorem decEnc_pairs (l : List (String × Int)) : decodePairs (encodePairs l) = some l := by
  induction l with
  | nil => rfl
  | cons x xs ih =>
      obtain ⟨k, n⟩ := x
      simp [encodePairs, decodePairs, Json.asInt, ih]



mutual
theorem decEnc_section (s : OutlineSection) :
    decodeSection (encodeSection s) = some s := by
  match s with
  | .mk h lv tw subs kp =>
      have h5 : decodeSecObj (JsonObj.cons "key_points"
            (Json.arr (encodeListWith Json.str kp)) JsonObj.nil) =
          some ⟨none, none, none, none, some kp⟩ := by
        have e : decodeSecObj (JsonObj.cons "key_points"
              (Json.arr (encodeListWith Json.str kp)) JsonObj.nil) =
            (decodeListWith Json.asStr (encodeListWith Json.str kp)).bind
              (fun kp' => some ⟨none, none, none, none, some kp'⟩) := rfl
        rw [e, decEnc_str kp]; rfl
      have h4 : decodeSecObj (JsonObj.cons "subsections" (Json.arr (encodeSections subs))
            (JsonObj.cons "key_points" (Json.arr (encodeListWith Json.str kp)) JsonObj.nil)) =
          some ⟨none, none, none, some subs, some kp⟩ := by
        have e : decodeSecObj (JsonObj.cons "subsections" (Json.arr (encodeSections subs))
              (JsonObj.cons "key_points" (Json.arr (encodeListWith Json.str kp)) JsonObj.nil)) =
            (decodeSecObj (JsonObj.cons "key_points"
              (Json.arr (encodeListWith Json.str kp)) JsonObj.nil)).bind
              (fun acc => (decodeSections (encodeSections subs)).bind fun ss =>
                some { acc with subsections := some ss }) := rfl
        rw [e, h5, Option.some_bind, decEnc_sections subs]; rfl
      have h3 : decodeSecObj (JsonObj.cons "target_words" (Json.num tw)
            (JsonObj.cons "subsections" (Json.arr (encodeSections subs))
              (JsonObj.cons "key_points" (Json.arr (encodeListWith Json.str kp)) JsonObj.nil))) =
          some ⟨none, none, some tw, some subs, some kp⟩ := by
        have e : decodeSecObj (JsonObj.cons "target_words" (Json.num tw)
              (JsonObj.cons "subsections" (Json.arr (encodeSections subs))
                (JsonObj.cons "key_points" (Json.arr (encodeListWith Json.str kp)) JsonObj.nil))) =
            (decodeSecObj (JsonObj.cons "subsections" (Json.arr (encodeSections subs))
              (JsonObj.cons "key_points" (Json.arr (encodeListWith Json.str kp)) JsonObj.nil))).bind
              (fun acc => some { acc with target_words := some tw }) := rfl
        rw [e, h4]; rfl
      have h2 : decodeSecObj (JsonObj.cons "level" (Json.num lv)
            (JsonObj.cons "target_words" (Json.num tw)
              (JsonObj.cons "subsections" (Json.arr (encodeSections subs))
                (JsonObj.cons "key_points" (Json.arr (encodeListWith Json.str kp)) JsonObj.nil)))) =
          some ⟨none, some lv, some tw, some subs, some kp⟩ := by
        have e : decodeSecObj (JsonObj.cons "level" (Json.num lv)
              (JsonObj.cons "target_words" (Json.num tw)
                (JsonObj.cons "subsections" (Json.arr (encodeSections subs))
                  (JsonObj.cons "key_points" (Json.arr (encodeListWith Json.str kp)) JsonObj.nil)))) =
            (decodeSecObj (JsonObj.cons "target_words" (Json.num tw)
              (JsonObj.cons "subsections" (Json.arr (encodeSections subs))
                (JsonObj.cons "key_points" (Json.arr (encodeListWith Json.str kp)) JsonObj.nil)))).bind
              (fun acc => some { acc with level := some lv }) := rfl
        rw [e, h3]; rfl
      have h1 : decodeSecObj (JsonObj.cons "heading" (Json.str h)
            (JsonObj.cons "level" (Json.num lv)
              (JsonObj.cons "target_words" (Json.num tw)
                (JsonObj.cons "subsections" (Json.arr (encodeSections subs))
                  (JsonObj.cons "key_points" (Json.arr (encodeListWith Json.str kp)) JsonObj.nil))))) =
          some ⟨some h, some lv, some tw, some subs, some kp⟩ := by
        have e : decodeSecObj (JsonObj.cons "heading" (Json.str h)
              (JsonObj.cons "level" (Json.num lv)
                (JsonObj.cons "target_words" (Json.num tw)
                  (JsonObj.cons "subsections" (Json.arr (encodeSections subs))
                    (JsonObj.cons "key_points" (Json.arr (encodeListWith Json.str kp)) JsonObj.nil))))) =
            (decodeSecObj (JsonObj.cons "level" (Json.num lv)
              (JsonObj.cons "target_words" (Json.num tw)
                (JsonObj.cons "subsections" (Json.arr (encodeSections subs))
                  (JsonObj.cons "key_points" (Json.arr (encodeListWith Json.str kp))
                    JsonObj.nil))))).bind
              (fun acc => some { acc with heading := some h }) := rfl
        rw [e, h2]; rfl
      have e0 : decodeSection (encodeSection (OutlineSection.mk h lv tw subs kp)) =
          (decodeSecObj (JsonObj.cons "heading" (Json.str h)
            (JsonObj.cons "level" (Json.num lv)
              (JsonObj.cons "target_words" (Json.num tw)
                (JsonObj.cons "subsections" (Json.arr (encodeSections subs))
                  (JsonObj.cons "key_points" (Json.arr (encodeListWith Json.str kp))
                    JsonObj.nil)))))).bind
            (fun acc => acc.heading.bind fun hh =>
              some (OutlineSection.mk hh (acc.level.getD 2) (acc.target_words.getD 200)
                (acc.subsections.getD SectionList.nil) (acc.key_points.getD []))) := rfl
      rw [e0, h1]; rfl

theorem decEnc_sections (l : SectionList) :
    decodeSections (encodeSections l) = some l := by
  match l with
  | .nil => rfl
  | .cons s tl =>
      have e : decodeSections (encodeSections (SectionList.cons s tl)) =
          (decodeSection (encodeSection s)).bind (fun s' =>
            (decodeSections (encodeSections tl)).bind fun r =>
              some (SectionList.cons s' r)) := rfl
      rw [e, decEnc_section s, Option.some_bind, decEnc_sections tl]; rfl
end

theorem decEnc_outline (o : ArticleOutline) : decodeOutline (encodeOutline o) = some o := by
  simp [decodeOutline, encodeOutline, JsonObj.lookup, Json.asStr, Json.asInt,
    decEnc_sections, decEnc_str]



theorem decEnc_meta (m : SEOMetadata) : decodeMeta (encodeMeta m) = some m := by
  simp [decodeMeta, encodeMeta, JsonObj.lookup, Json.asStr, decEnc_str]

theorem decEnc_kw (k : KeywordAnalysis) : decodeKw (encodeKw k) = some k := by
  simp [decodeKw, encodeKw, JsonObj.lookup, Json.asStr, Json.asInt, decEnc_str,
    decEnc_pairs]

theorem decEnc_ilink (l : InternalLink) : decodeILink (encodeILink l) = some l := by
  simp [decodeILink, encodeILink, JsonObj.lookup, Json.asStr]

theorem decEnc_eref (r : ExternalReference) : decodeERef (encodeERef r) = some r := by
  simp [decodeERef, encodeERef, JsonObj.lookup, Json.asStr]

theorem decEnc_heading (h : HeadingNode) (hv : headingValid h = true) :
    decodeHeading (encodeHeading h) = some h := by
  simp only [headingValid, Bool.and_eq_true, decide_eq_true_eq] at hv
  obtain ⟨h1, h2⟩ := hv
  simp [decodeHeading, encodeHeading, JsonObj.lookup, Json.asStr, Json.asInt, h1, h2]

theorem decEnc_check (c : SEOValidationCheck) : decodeCheck (encodeCheck c) = some c := by
  simp [decodeCheck, encodeCheck, JsonObj.lookup, Json.asStr, Json.asBool]

theorem decEnc_validation (v : SEOValidationResult) (hv : validationValid v = true) :
    decodeValidation (encodeValidation v) = some v := by
  simp only [validationValid, Bool.and_eq_true, decide_eq_true_eq] at hv
  obtain ⟨h1, h2⟩ := hv
  simp [decodeValidation, encodeValidation, JsonObj.lookup, Json.asStr, Json.asInt,
    Json.asBool, h1, h2, decEnc_str,
    decEnc_listWith decodeCheck encodeCheck v.checks (fun c _ => decEnc_check c)]

theorem decEnc_article (g : GeneratedArticle) (hv : articleValid g = true) :
    decodeArticle (encodeArticle g) = some g := by
  simp only [articleValid, Bool.and_eq_true, List.all_eq_true] at hv
  obtain ⟨h1, h2⟩ := hv
  simp [decodeArticle, encodeArticle, JsonObj.lookup, Json.asStr, Json.asInt,
    decEnc_meta, decEnc_kw, decEnc_validation g.seo_validation h2,
    decEnc_listWith decodeHeading encodeHeading g.heading_structure
      (fun x hx => decEnc_heading x (h1 x hx)),
    decEnc_listWith decodeILink encodeILink g.internal_links (fun x _ => decEnc_ilink x),
    decEnc_listWith decodeERef encodeERef g.external_references (fun x _ => decEnc_eref x)]

theorem decEnc_artifacts (a : JobArtifacts) (hv : artifactsValid a = true) :
    decodeArtifacts (encodeArtifacts a) = some a := by
  simp only [artifactsValid, Bool.and_eq_true] at hv
  obtain ⟨h1, h2⟩ := hv
  simp [decodeArtifacts, encodeArtifacts, JsonObj.lookup, decEnc_optStr,
    decEnc_listWith decodePageSignals encodePageSignals a.page_signals
      (fun x _ => decEnc_pageSignals x),
    decEnc_opt decodeSerpData encodeSerpData a.serp_data
      (fun x => by simp [encodeSerpData])
      (fun x hx => decEnc_serpData x (by rw [hx] at h1; exact h1)),
    decEnc_opt decodeTheme encodeTheme a.theme_analysis
      (fun x => by simp [encodeTheme]) (fun x _ => decEnc_theme x),
    decEnc_opt decodeOutline encodeOutline a.outline
      (fun x => by simp [encodeOutline]) (fun x _ => decEnc_outline x),
    decEnc_opt decodeArticle encodeArticle a.final_article
      (fun x => by simp [encodeArticle])
      (fun x hx => decEnc_article x (by rw [hx] at h2; exact h2))]

theorem decEnc_jobErr (e : JobError) : decodeJobErr (encodeJobErr e) = some e := by
  simp [decodeJobErr, encodeJobErr, JsonObj.lookup, Json.asStr, asNat_natJson,
    stepOfStr_toStr, decEnc_optStr]

theorem decEnc_optNat (o : Option Nat) :
    decodeOptWith Json.asNat (encodeOptWith natJson o) = some o :=
  decEnc_opt _ _ o (fun x => by simp [natJson]) (fun x _ => asNat_natJson x)

theorem decEnc_job (j : Job) (hv : jobValid j = true) :
    decodeJob (encodeJob j) = some j := by
  simp only [jobValid, Bool.and_eq_true] at hv
  obtain ⟨h1, h2⟩ := hv
  simp [decodeJob, encodeJob, JsonObj.lookup, Json.asStr, asNat_natJson,
    decEnc_input j.input h1, statusOfStr_toStr, stepOfStr_toStr,
    decEnc_artifacts j.artifacts h2, decEnc_optNat,
    decEnc_opt decodeJobErr encodeJobErr j.error
      (fun x => by simp [encodeJobErr]) (fun x _ => decEnc_jobErr x)]



theorem fsRemove_of_lookup_none (fs : FS) (p : String)
    (h : fsLookup fs p = none) : fsRemove fs p = fs := by
  induction fs with
  | nil => rfl
  | cons e r ih =>
      obtain ⟨q, d⟩ := e
      simp only [fsLookup] at h
      simp only [fsRemove]
      split
      · rename_i hq; rw [hq] at h; simp at h
      · rename_i hq
        rw [ih]
        by_cases hq2 : q = p
        · exact absurd hq2 hq
        · simpa [hq2] using h

theorem fsRemove_idem (fs : FS) (p : String) :
    fsRemove (fsRemove fs p) p = fsRemove fs p := by
  induction fs with
  | nil => rfl
  | cons e r ih =>
      obtain ⟨q, d⟩ := e
      simp only [fsRemove]
      split
      · exact ih
      · simp only [fsRemove]
        split
        · rename_i h1 h2; exact absurd h2 h1
        · rw [ih]

theorem fsRemove_fsSet (fs : FS) (p : String) (d : FileData) :
    fsRemove (fsSet fs p d) p = fsRemove fs p := by
  simp [fsSet, fsRemove, fsRemove_idem]

theorem fsLookup_fsSet_self (fs : FS) (p : String) (d : FileData) :
    fsLookup (fsSet fs p d) p = some d := by
  simp [fsSet, fsLookup]

theorem insertDesc_mem (x j : Job) (l : List Job) :
    x ∈ insertDesc j l ↔ x = j ∨ x ∈ l := by
  induction l with
  | nil => simp [insertDesc]
  | cons y ys ih =>
      simp only [insertDesc]
      split
      all_goals simp only [List.mem_cons, ih]
      all_goals tauto

theorem insertDesc_length (j : Job) (l : List Job) :
    (insertDesc j l).length = l.length + 1 := by
  induction l with
  | nil => rfl
  | cons y ys ih =>
      simp only [insertDesc]
      split
      · simp [ih]
      · simp

theorem sortFold_mem (l : List Job) (acc : List Job) (x : Job) :
    x ∈ l.foldl (fun a j => insertDesc j a) acc ↔ x ∈ acc ∨ x ∈ l := by
  induction l generalizing acc with
  | nil => simp
  | cons y ys ih =>
      simp only [List.foldl_cons, ih, insertDesc_mem, List.mem_cons]
      tauto

theorem sortByCreatedDesc_mem (l : List Job) (x : Job) :
    x ∈ sortByCreatedDesc l ↔ x ∈ l := by
  simp [sortByCreatedDesc, sortFold_mem]

theorem sortFold_length (l : List Job) (acc : List Job) :
    (l.foldl (fun a j => insertDesc j a) acc).length = acc.length + l.length := by
  induction l generalizing acc with
  | nil => simp
  | cons y ys ih =>
      simp only [List.foldl_cons, ih, insertDesc_length, List.length_cons]
      omega

theorem sortByCreatedDesc_length (l : List Job) :
    (sortByCreatedDesc l).length = l.length := by
  simp [sortByCreatedDesc, sortFold_length]

/-- Claim C9 (amended): `get_resumable_jobs` returns exactly the stored
jobs whose status is `running` or `failed` provided each of the two groups
holds at most 100 jobs (the default `limit` of `list_jobs`); beyond that
each group is truncated to its 100 most recently created records. -/
theorem claim_C9_amended (store : List Job)
    (hr : (store.filter fun j => decide (j.status = JobStatus.running)).length ≤ 100)
    (hf : (store.filter fun j => decide (j.status = JobStatus.failed)).length ≤ 100) :
    ∀ j : Job, j ∈ getResumableJobs store ↔
      (j ∈ store ∧ (j.status = JobStatus.running ∨ j.status = JobStatus.failed)) := by
  intro j
  have htr : listJobs store (some JobStatus.running) 100 =
      sortByCreatedDesc (store.filter fun x => decide (x.status = JobStatus.running)) := by
    apply List.take_of_length_le
    rw [sortByCreatedDesc_length]
    exact hr
  have htf : listJobs store (some JobStatus.failed) 100 =
      sortByCreatedDesc (store.filter fun x => decide (x.status = JobStatus.failed)) := by
    apply List.take_of_length_le
    rw [sortByCreatedDesc_length]
    exact hf
  simp only [getResumableJobs, List.mem_append, htr, htf, sortByCreatedDesc_mem,
    List.mem_filter, decide_eq_true_eq]
  tauto



theorem execStep_ok_facts (b : StepBehavior) (j j' : Job) (i : Nat) (hi : i ≤ 5)
    (hidx : stepIdx j.current_step = i) (hinv : chainInv j = true)
    (hstep : execStep b j (stepAt (i + 1)) = .ok j') :
    j'.current_step = j.current_step ∧
    artLE j.artifacts j'.artifacts ∧
    (∀ n ∈ ([1, 2, 3, 4, 5] : List Nat),
      presentAt j'.artifacts n = decide (n ≤ i + 1)) := by
  simp only [chainInv, List.all_cons, List.all_nil, Bool.and_eq_true,
    decide_eq_true_eq, hidx] at hinv
  obtain ⟨p1, p2, p3, p4, p5, -⟩ := hinv
  simp only [presentAt] at p1 p2 p3 p4 p5
  interval_cases i <;>
    simp only [stepAt, execStep] at hstep <;>
    (repeat' split at hstep) <;>
    (try (exfalso; exact Except.noConfusion hstep)) <;>
    (rw [Except.ok.injEq] at hstep; subst hstep) <;>
    refine ⟨rfl, ?_, ?_⟩ <;>
    simp [artLE, presentAt, p1, p2, p3, p4, p5]



theorem optLE_trans {α : Type} {a b c : Option α}
    (h1 : a.isSome → b = a) (h2 : b.isSome → c = b) : a.isSome → c = a := by
  intro h
  rw [h2 (by rw [h1 h]; exact h), h1 h]

theorem artLE_refl (a : JobArtifacts) : artLE a a :=
  ⟨fun _ => rfl, fun _ => rfl, fun _ => rfl, fun _ => rfl, fun _ => rfl⟩

theorem artLE_trans {a b c : JobArtifacts} (h1 : artLE a b) (h2 : artLE b c) :
    artLE a c := by
  obtain ⟨x1, x2, x3, x4, x5⟩ := h1
  obtain ⟨y1, y2, y3, y4, y5⟩ := h2
  exact ⟨optLE_trans x1 y1, optLE_trans x2 y2, optLE_trans x3 y3,
    optLE_trans x4 y4, optLE_trans x5 y5⟩

theorem stepIdx_stepAt (k : Nat) (h : k ≤ 6) : stepIdx (stepAt k) = k := by
  interval_cases k <;> rfl

theorem runSteps_master (b : StepBehavior) :
    ∀ (len i : Nat) (s s' : OrchState) (out : Option Exc),
      i + len = 6 →
      stepIdx s.job.current_step = i →
      chainInv s.job = true →
      runSteps b s (List.range' i len) = (s', out) →
      chainInv s'.job = true ∧
      i ≤ stepIdx s'.job.current_step ∧
      artLE s.job.artifacts s'.job.artifacts ∧
      (∀ x ∈ s'.saves, x ∈ s.saves ∨
        (chainInv x = true ∧ artLE x.artifacts s'.job.artifacts)) ∧
      (∀ e, out = some e → stepIdx s'.job.current_step ≤ 5 ∧
        execStep b s'.job (stepAt (stepIdx s'.job.current_step + 1)) = .error e) := by
  intro len
  induction len with
  | zero =>
      intro i s s' out hlen hidx hinv hrun
      simp only [List.range', runSteps] at hrun
      cases hrun
      exact ⟨hinv, Nat.le_of_eq hidx.symm, artLE_refl _,
        fun x hx => Or.inl hx, fun e he => by simp at he⟩
  | succ len ih =>
      intro i s s' out hlen hidx hinv hrun
      have hi5 : i ≤ 5 := by omega
      have hrange : List.range' i (len + 1) = i :: List.range' (i + 1) len := rfl
      rw [hrange] at hrun
      simp only [runSteps] at hrun
      split at hrun
      case h_1 e hstep =>
          cases hrun
          refine ⟨hinv, Nat.le_of_eq hidx.symm, artLE_refl _,
            fun x hx => Or.inl hx, fun e' he' => ?_⟩
          cases he'
          rw [hidx]
          exact ⟨hi5, hstep⟩
      case h_2 j' hstep =>
          obtain ⟨hc, hart, hpres⟩ := execStep_ok_facts b s.job j' i hi5 hidx hinv hstep
          set s2 := checkpoint { s with job := j' } (stepAt (i + 1)) with hs2
          have h2cs : s2.job.current_step = stepAt (i + 1) := by
            simp only [hs2, checkpoint, Job.markStep, jsSave]
            try split <;> rfl
          have h2art : s2.job.artifacts = j'.artifacts := by
            simp only [hs2, checkpoint, Job.markStep, jsSave]
            try split <;> rfl
          have h2saves : s2.saves = s.saves ++ [s2.job] := by
            simp only [hs2, checkpoint, Job.markStep, jsSave]
            try split <;> rfl
          have h2idx : stepIdx s2.job.current_step = i + 1 := by
            rw [h2cs]; exact stepIdx_stepAt _ (by omega)
          have h2inv : chainInv s2.job = true := by
            simp only [chainInv, List.all_cons, List.all_nil, Bool.and_true,
              Bool.and_eq_true, decide_eq_true_eq, h2idx, h2art]
            exact ⟨hpres 1 (by simp), hpres 2 (by simp), hpres 3 (by simp),
              hpres 4 (by simp), hpres 5 (by simp)⟩
          have hartLE2 : artLE s.job.artifacts s2.job.artifacts := by
            rw [h2art]; exact hart
          split at hrun
          case isTrue hcomp =>
            injection hrun with he1 he2
            subst he1
            subst he2
            refine ⟨h2inv, by omega, hartLE2, fun x hx => ?_, fun e he => by simp at he⟩
            rw [h2saves] at hx
            rcases List.mem_append.mp hx with hx | hx
            · exact Or.inl hx
            · rcases List.mem_singleton.mp hx with rfl
              exact Or.inr ⟨h2inv, artLE_refl _⟩
          case isFalse hcomp =>
            obtain ⟨ic, ile, iart, isaves, ierr⟩ :=
              ih (i + 1) s2 s' out (by omega) h2idx h2inv hrun
            refine ⟨ic, by omega, artLE_trans hartLE2 iart, fun x hx => ?_, ierr⟩
            rcases isaves x hx with hx2 | hx2
            · rw [h2saves] at hx2
              rcases List.mem_append.mp hx2 with hx3 | hx3
              · exact Or.inl hx3
              · rcases List.mem_singleton.mp hx3 with rfl
                exact Or.inr ⟨h2inv, iart⟩
            · exact Or.inr hx2



theorem execStep_err_irrel (b : StepBehavior) (j : Job) (st : JobStatus)
    (er : Option JobError) (ua : Nat) (p : PipelineStep) (e : Exc)
    (h : execStep b j p = .error e) :
    execStep b { j with status := st, error := er, updated_at := ua } p = .error e := by
  cases p <;> simp only [execStep] at h ⊢ <;> (repeat' split at h) <;> simp_all



theorem stepIdx_le6 (p : PipelineStep) : stepIdx p ≤ 6 := by
  cases p <;> simp [stepIdx]

theorem run_master (b : StepBehavior) (j0 : Job) (c : Nat) (s' : OrchState)
    (out : Option Exc) (hinv : chainInv j0 = true)
    (hrun : run b ⟨j0, c, []⟩ = (s', out)) :
    chainInv s'.job = true ∧
    stepIdx j0.current_step ≤ stepIdx s'.job.current_step ∧
    artLE j0.artifacts s'.job.artifacts ∧
    (∀ x ∈ s'.saves, chainInv x = true ∧ artLE x.artifacts s'.job.artifacts) ∧
    (∀ e, out = some e →
      s'.job.status = JobStatus.failed ∧
      (∃ t, s'.job.error = some ⟨s'.job.current_step, e.message, some e.reprS, t⟩) ∧
      stepIdx s'.job.current_step ≤ 5 ∧
      execStep b s'.job (stepAt (stepIdx s'.job.current_step + 1)) = .error e ∧
      s'.saves.getLast? = some s'.job) := by
  simp only [run] at hrun
  split at hrun
  case h_1 s2 heq =>
      injection hrun with he1 he2
      subst he1
      subst he2
      obtain ⟨mc, mle, mart, msaves, merr⟩ :=
        runSteps_master b (6 - stepIdx j0.current_step) (stepIdx j0.current_step)
          _ s2 none (by have := stepIdx_le6 j0.current_step; omega) rfl hinv heq
      refine ⟨mc, mle, mart, fun x hx => ?_, fun e he => by simp at he⟩
      rcases msaves x hx with hx2 | hx2
      · rcases List.mem_singleton.mp hx2 with rfl
        exact ⟨hinv, mart⟩
      · exact hx2
  case h_2 s2 e heq =>
      injection hrun with he1 he2
      subst he1
      subst he2
      obtain ⟨mc, mle, mart, msaves, merr⟩ :=
        runSteps_master b (6 - stepIdx j0.current_step) (stepIdx j0.current_step)
          _ s2 (some e) (by have := stepIdx_le6 j0.current_step; omega) rfl hinv heq
      obtain ⟨hle5, hex⟩ := merr e rfl
      refine ⟨mc, mle, mart, fun x hx => ?_, fun e' he' => ?_⟩
      · rcases List.mem_append.mp hx with hx2 | hx2
        · rcases msaves x hx2 with hx3 | hx3
          · rcases List.mem_singleton.mp hx3 with rfl
            exact ⟨hinv, mart⟩
          · exact hx3
        · rcases List.mem_singleton.mp hx2 with rfl
          exact ⟨mc, artLE_refl _⟩
      · cases he'
        refine ⟨rfl, ⟨s2.clock, rfl⟩, hle5, ?_, ?_⟩
        · exact execStep_err_irrel b s2.job JobStatus.failed _ _ _ e hex
        · exact List.getLast?_concat _


theorem chainInv_elim (x : Job) (h : chainInv x = true) :
    ∀ n ∈ ([1, 2, 3, 4, 5] : List Nat),
      presentAt x.artifacts n = decide (n ≤ stepIdx x.current_step) := by
  simp only [chainInv, List.all_cons, List.all_nil, Bool.and_true,
    Bool.and_eq_true, decide_eq_true_eq] at h
  obtain ⟨p1, p2, p3, p4, p5⟩ := h
  intro n hn
  fin_cases hn <;> simp_all

theorem chainInv_highest (x : Job) (h : chainInv x = true) :
    (x.current_step ≠ PipelineStep.completed →
      stepIdx x.current_step = highestArtifact x) ∧
    (x.current_step = PipelineStep.completed →
      highestArtifact x = 5 ∧ stepIdx x.current_step = highestArtifact x + 1) := by
  simp only [chainInv, List.all_cons, List.all_nil, Bool.and_true,
    Bool.and_eq_true, decide_eq_true_eq] at h
  obtain ⟨p1, p2, p3, p4, p5⟩ := h
  cases hcs : x.current_step <;>
    rw [hcs] at p1 p2 p3 p4 p5 <;>
    simp only [stepIdx] at p1 p2 p3 p4 p5 <;>
    simp_all [highestArtifact, stepIdx]

theorem saves_chainInv (b : StepBehavior) (j0 : Job) (c : Nat)
    (hinv : chainInv j0 = true) :
    (∀ x ∈ (run b ⟨j0, c, []⟩).1.saves, chainInv x = true) ∧
    (∀ st err, resume b (some j0) c = ResumeOutcome.ran st err →
      ∀ x ∈ st.saves, chainInv x = true) := by
  constructor
  · obtain ⟨-, -, -, msaves, -⟩ :=
      run_master b j0 c (run b ⟨j0, c, []⟩).1 (run b ⟨j0, c, []⟩).2 hinv rfl
    exact fun x hx => (msaves x hx).1
  · intro st err hres
    simp only [resume] at hres
    split at hres
    · exact ResumeOutcome.noConfusion hres
    · split at hres
      · exact ResumeOutcome.noConfusion hres
      · injection hres with h1 h2
        subst h1
        subst h2
        obtain ⟨-, -, -, msaves, -⟩ :=
          run_master b { j0 with error := none, retry_count := j0.retry_count + 1 }
            c _ _ hinv rfl
        exact fun x hx => (msaves x hx).1



/-- Claim C1 (amended): for every state persisted by the checkpoint chain of
`run` or `resume` from a chain-consistent job, if `current_step` is not the
terminal `completed` marker it equals the highest pipeline step whose
artifact is present (and so is never ahead of it); at the terminal
`completed` marker all five step artifacts are present and `current_step`
sits exactly one position past the highest artifact-bearing step. -/
theorem claim_C1 (b : StepBehavior) (j0 : Job) (c : Nat)
    (hinv : chainInv j0 = true) :
    (∀ x ∈ (run b ⟨j0, c, []⟩).1.saves,
      (x.current_step ≠ PipelineStep.completed →
        stepIdx x.current_step = highestArtifact x) ∧
      (x.current_step = PipelineStep.completed →
        highestArtifact x = 5 ∧ stepIdx x.current_step = highestArtifact x + 1)) ∧
    (∀ st err, resume b (some j0) c = ResumeOutcome.ran st err →
      ∀ x ∈ st.saves,
        (x.current_step ≠ PipelineStep.completed →
          stepIdx x.current_step = highestArtifact x) ∧
        (x.current_step = PipelineStep.completed →
          highestArtifact x = 5 ∧ stepIdx x.current_step = highestArtifact x + 1)) := by
  obtain ⟨h1, h2⟩ := saves_chainInv b j0 c hinv
  exact ⟨fun x hx => chainInv_highest x (h1 x hx),
    fun st err hres x hx => chainInv_highest x (h2 st err hres x hx)⟩

/-- Claim C1 fails as stated: the final persisted state of a fully
successful run has `current_step = completed` while the highest step with a
present artifact is `seo_validation` (index 5), so `current_step` is ahead
of it. -/
theorem claim_C1_counterexample :
    ((run okB ⟨freshJob, 1, []⟩).1.saves.getD 6 freshJob).current_step =
      PipelineStep.completed ∧
    highestArtifact ((run okB ⟨freshJob, 1, []⟩).1.saves.getD 6 freshJob) = 5 ∧
    stepIdx ((run okB ⟨freshJob, 1, []⟩).1.saves.getD 6 freshJob).current_step ≠
      highestArtifact ((run okB ⟨freshJob, 1, []⟩).1.saves.getD 6 freshJob) ∧
    highestArtifact ((run okB ⟨freshJob, 1, []⟩).1.saves.getD 6 freshJob) <
      stepIdx ((run okB ⟨freshJob, 1, []⟩).1.saves.getD 6 freshJob).current_step := by
  decide

/-- Witness for the amended claim C1 at a concrete behavior and job. -/
theorem claim_C1_witness :
    chainInv freshJob = true ∧
    (∀ x ∈ (run okB ⟨freshJob, 1, []⟩).1.saves,
      (x.current_step ≠ PipelineStep.completed →
        stepIdx x.current_step = highestArtifact x) ∧
      (x.current_step = PipelineStep.completed →
        highestArtifact x = 5 ∧ stepIdx x.current_step = highestArtifact x + 1)) :=
  ⟨by decide, (claim_C1 okB freshJob 1 (by decide)).1⟩

/-- Claim C2 (amended): for every persisted job state, the artifact for
step N is present if and only if `current_step` has advanced at least to N
itself (not N+1): the checkpoint that writes the artifact for step N sets
`current_step` to N in the same save. -/
theorem claim_C2 (b : StepBehavior) (j0 : Job) (c : Nat)
    (hinv : chainInv j0 = true) :
    (∀ x ∈ (run b ⟨j0, c, []⟩).1.saves, ∀ n ∈ ([1, 2, 3, 4, 5] : List Nat),
      presentAt x.artifacts n = decide (n ≤ stepIdx x.current_step)) ∧
    (∀ st err, resume b (some j0) c = ResumeOutcome.ran st err →
      ∀ x ∈ st.saves, ∀ n ∈ ([1, 2, 3, 4, 5] : List Nat),
        presentAt x.artifacts n = decide (n ≤ stepIdx x.current_step)) := by
  obtain ⟨h1, h2⟩ := saves_chainInv b j0 c hinv
  exact ⟨fun x hx => chainInv_elim x (h1 x hx),
    fun st err hres x hx => chainInv_elim x (h2 st err hres x hx)⟩

/-- Claim C2 fails as stated: after the first checkpoint of a successful
run the SERP artifact (step index 1) is present while `current_step` is
`serp_analysis` (index 1), which has not advanced to index 2. -/
theorem claim_C2_counterexample :
    presentAt ((run okB ⟨freshJob, 1, []⟩).1.saves.getD 1 freshJob).artifacts 1 = true ∧
    stepIdx ((run okB ⟨freshJob, 1, []⟩).1.saves.getD 1 freshJob).current_step = 1 ∧
    ¬ (1 + 1 ≤ stepIdx ((run okB ⟨freshJob, 1, []⟩).1.saves.getD 1 freshJob).current_step) := by
  decide

/-- Witness for the amended claim C2 at a concrete behavior and job. -/
theorem claim_C2_witness :
    chainInv freshJob = true ∧
    (∀ x ∈ (run okB ⟨freshJob, 1, []⟩).1.saves, ∀ n ∈ ([1, 2, 3, 4, 5] : List Nat),
      presentAt x.artifacts n = decide (n ≤ stepIdx x.current_step)) :=
  ⟨by decide, (claim_C2 okB freshJob 1 (by decide)).1⟩

/-- Claim C3: if a step invocation raises, `current_step` is not advanced
past the failing step (the step immediately after the final `current_step`
is exactly the one whose invocation fails), it never moves backwards, and
every artifact present in the initial job or in any persisted snapshot is
still present unchanged in the final job record. -/
theorem claim_C3 (b : StepBehavior) (j0 : Job) (c : Nat) (s' : OrchState) (e : Exc)
    (hinv : chainInv j0 = true)
    (hrun : run b ⟨j0, c, []⟩ = (s', some e)) :
    stepIdx j0.current_step ≤ stepIdx s'.job.current_step ∧
    stepIdx s'.job.current_step ≤ 5 ∧
    execStep b s'.job (stepAt (stepIdx s'.job.current_step + 1)) = .error e ∧
    artLE j0.artifacts s'.job.artifacts ∧
    (∀ x ∈ s'.saves, artLE x.artifacts s'.job.artifacts) := by
  obtain ⟨-, mle, mart, msaves, merr⟩ := run_master b j0 c s' (some e) hinv hrun
  obtain ⟨-, -, h5, hex, -⟩ := merr e rfl
  exact ⟨mle, h5, hex, mart, fun x hx => (msaves x hx).2⟩

/-- Witness for claim C3: theme extraction fails after a successful SERP
step on a fresh job. -/
theorem claim_C3_witness :
    chainInv freshJob = true ∧
    run failTheme ⟨freshJob, 1, []⟩ =
      ((run failTheme ⟨freshJob, 1, []⟩).1, some themeExc) ∧
    (stepIdx freshJob.current_step ≤
      stepIdx (run failTheme ⟨freshJob, 1, []⟩).1.job.current_step ∧
    stepIdx (run failTheme ⟨freshJob, 1, []⟩).1.job.current_step ≤ 5 ∧
    execStep failTheme (run failTheme ⟨freshJob, 1, []⟩).1.job
      (stepAt (stepIdx (run failTheme ⟨freshJob, 1, []⟩).1.job.current_step + 1)) =
        .error themeExc ∧
    artLE freshJob.artifacts (run failTheme ⟨freshJob, 1, []⟩).1.job.artifacts ∧
    (∀ x ∈ (run failTheme ⟨freshJob, 1, []⟩).1.saves,
      artLE x.artifacts (run failTheme ⟨freshJob, 1, []⟩).1.job.artifacts)) :=
  ⟨by decide, rfl, claim_C3 failTheme freshJob 1 _ themeExc (by decide) rfl⟩

/-- Claim C4 fails as stated: when theme extraction is the failing step,
the recorded `JobError.step` is `serp_analysis` (the last successfully
checkpointed step), not the failing step `theme_extraction`. -/
theorem claim_C4_counterexample :
    (run failTheme ⟨freshJob, 1, []⟩).2 = some themeExc ∧
    execStep failTheme (run failTheme ⟨freshJob, 1, []⟩).1.job
      PipelineStep.theme_extraction = .error themeExc ∧
    ((run failTheme ⟨freshJob, 1, []⟩).1.job.error.map JobError.step) =
      some PipelineStep.serp_analysis ∧
    PipelineStep.serp_analysis ≠ PipelineStep.theme_extraction :=
  ⟨rfl, rfl, rfl, by decide⟩

/-- Claim C4 (amended): on a step failure the orchestrator records a
`JobError` whose `step` field is the job's `current_step` at failure time,
i.e. the last successfully checkpointed step immediately preceding the
failing step, with the exception's message and repr; sets status `failed`;
persists the failed record as the last save; and re-raises the exception. -/
theorem claim_C4_amended (b : StepBehavior) (j0 : Job) (c : Nat) (s' : OrchState)
    (e : Exc) (hinv : chainInv j0 = true)
    (hrun : run b ⟨j0, c, []⟩ = (s', some e)) :
    s'.job.status = JobStatus.failed ∧
    (∃ t, s'.job.error = some ⟨s'.job.current_step, e.message, some e.reprS, t⟩) ∧
    execStep b s'.job (stepAt (stepIdx s'.job.current_step + 1)) = .error e ∧
    s'.saves.getLast? = some s'.job := by
  obtain ⟨-, -, -, -, merr⟩ := run_master b j0 c s' (some e) hinv hrun
  obtain ⟨hst, herr, -, hex, hlast⟩ := merr e rfl
  exact ⟨hst, herr, hex, hlast⟩

/-- Witness for the amended claim C4 on the concrete failing run. -/
theorem claim_C4_witness :
    chainInv freshJob = true ∧
    ((run failTheme ⟨freshJob, 1, []⟩).1.job.status = JobStatus.failed ∧
    (∃ t, (run failTheme ⟨freshJob, 1, []⟩).1.job.error =
      some ⟨(run failTheme ⟨freshJob, 1, []⟩).1.job.current_step,
        themeExc.message, some themeExc.reprS, t⟩) ∧
    execStep failTheme (run failTheme ⟨freshJob, 1, []⟩).1.job
      (stepAt (stepIdx (run failTheme ⟨freshJob, 1, []⟩).1.job.current_step + 1)) =
        .error themeExc ∧
    (run failTheme ⟨freshJob, 1, []⟩).1.saves.getLast? =
      some (run failTheme ⟨freshJob, 1, []⟩).1.job) :=
  ⟨by decide, claim_C4_amended failTheme freshJob 1 _ themeExc (by decide) rfl⟩



/-- Claim C10: constructing a `JobInput` succeeds exactly when the topic
length is between 3 and 500 characters and the word count is between 500
and 5000, all inclusive; omitted fields default to `word_count = 1500` and
`language = "en"`. -/
theorem claim_C10 (t : String) (w : Int) (l : String) :
    ((mkJobInput t (some w) (some l)).isSome ↔
      (3 ≤ t.length ∧ t.length ≤ 500 ∧ 500 ≤ w ∧ w ≤ 5000)) ∧
    mkJobInput t none none =
      (if 3 ≤ t.length ∧ t.length ≤ 500 then some ⟨t, 1500, "en"⟩ else none) := by
  constructor
  · simp only [mkJobInput, Option.getD]
    split
    · split <;> simp_all
    · simp_all
  · simp only [mkJobInput, Option.getD]
    split
    · split <;> simp_all
    · simp

/-- Claim C5: `resume` raises NotFound when the store has no record,
returns a `completed` job as-is without executing steps, raises
InvalidState on a `pending` job, and on `failed` or `running` clears the
JobError, increments `retry_count`, and invokes `run` from the persisted
`current_step`. -/
theorem claim_C5 (b : StepBehavior) (c : Nat) :
    resume b none c = ResumeOutcome.notFound ∧
    (∀ j : Job, j.status = JobStatus.completed →
      resume b (some j) c = ResumeOutcome.done j) ∧
    (∀ j : Job, j.status = JobStatus.pending →
      resume b (some j) c = ResumeOutcome.invalidState JobStatus.pending) ∧
    (∀ j : Job, j.status = JobStatus.failed ∨ j.status = JobStatus.running →
      resume b (some j) c =
        ResumeOutcome.ran
          (run b { job := { j with error := none, retry_count := j.retry_count + 1 },
                   clock := c, saves := [] }).1
          (run b { job := { j with error := none, retry_count := j.retry_count + 1 },
                   clock := c, saves := [] }).2) := by
  refine ⟨rfl, ?_, ?_, ?_⟩
  · intro j h; simp [resume, h]
  · intro j h; simp [resume, h]
  · intro j h
    rcases h with h | h <;> simp [resume, h]

/-- Claim C6 (amended): invoking `run` on a job whose `current_step` is
`completed` executes no steps and performs exactly one save, but it is not
a strict no-op: the returned job has status set to `running` and a
restamped `updated_at`; every other field is unchanged. -/
theorem claim_C6_amended (b : StepBehavior) (j : Job) (c : Nat)
    (h : j.current_step = PipelineStep.completed) :
    run b ⟨j, c, []⟩ =
      ({ job := { j with status := JobStatus.running, updated_at := c + 1 },
         clock := c + 2,
         saves := [{ j with status := JobStatus.running, updated_at := c + 1 }] },
       none) := by
  cases j
  simp only at h
  subst h
  rfl

/-- Claim C7: if `JobStore.save` fails after a record for the identifier
was previously committed, the temporary file is removed, the error is
surfaced, and the directory is left exactly as it was: the committed
record is untouched and fully readable. -/
theorem claim_C7 (fs : FS) (dir tempName : String) (fault : SaveFault)
    (j : Job) (now : Nat) (old : Job)
    (hfresh : fsLookup fs (dir ++ "/" ++ tempName) = none)
    (hfault : fault ≠ SaveFault.ok)
    (hold : storeGet fs dir j.job_id = some old) :
    (storeSave fs dir tempName fault j now).error.isSome = true ∧
    (storeSave fs dir tempName fault j now).fs = fs ∧
    storeGet (storeSave fs dir tempName fault j now).fs dir j.job_id = some old ∧
    fsLookup (storeSave fs dir tempName fault j now).fs
      (dir ++ "/" ++ tempName) = none := by
  have hfs : (storeSave fs dir tempName fault j now).fs = fs := by
    cases fault with
    | ok => exact absurd rfl hfault
    | duringWrite =>
        simp only [storeSave]
        rw [fsRemove_fsSet, fsRemove_of_lookup_none fs _ hfresh]
    | duringRename =>
        simp only [storeSave]
        rw [fsRemove_fsSet, fsRemove_fsSet, fsRemove_of_lookup_none fs _ hfresh]
  refine ⟨?_, hfs, ?_, ?_⟩
  · cases fault with
    | ok => exact absurd rfl hfault
    | duringWrite => rfl
    | duringRename => rfl
  · rw [hfs]; exact hold
  · rw [hfs]; exact hfresh

/-- Claim C6 fails as stated: running a completed job changes its status
field (from `completed` to `running`), so the job is not returned
unchanged. -/
theorem claim_C6_counterexample :
    completedJob.status = JobStatus.completed ∧
    completedJob.current_step = PipelineStep.completed ∧
    (run okB ⟨completedJob, 30, []⟩).1.job.status ≠ completedJob.status ∧
    (run okB ⟨completedJob, 30, []⟩).1.job ≠ completedJob := by
  decide

/-- Witness for the amended claim C6 on a concrete completed job. -/
theorem claim_C6_witness :
    completedJob.current_step = PipelineStep.completed ∧
    run okB ⟨completedJob, 30, []⟩ =
      ({ job := { completedJob with status := JobStatus.running, updated_at := 31 },
         clock := 32,
         saves := [{ completedJob with status := JobStatus.running, updated_at := 31 }] },
       none) :=
  ⟨by decide, claim_C6_amended okB completedJob 30 (by decide)⟩

/-- Witness for claim C7: a write fault while saving over an existing
committed record. -/
theorem claim_C7_witness :
    fsLookup wFs ("jobs" ++ "/" ++ wTmp) = none ∧
    SaveFault.duringWrite ≠ SaveFault.ok ∧
    storeGet wFs "jobs" "abc12345" = some freshJob ∧
    ((storeSave wFs "jobs" wTmp SaveFault.duringWrite freshJob 42).error.isSome = true ∧
    (storeSave wFs "jobs" wTmp SaveFault.duringWrite freshJob 42).fs = wFs ∧
    storeGet (storeSave wFs "jobs" wTmp SaveFault.duringWrite freshJob 42).fs
      "jobs" freshJob.job_id = some freshJob ∧
    fsLookup (storeSave wFs "jobs" wTmp SaveFault.duringWrite freshJob 42).fs
      ("jobs" ++ "/" ++ wTmp) = none) :=
  ⟨by decide, by decide, by decide,
   claim_C7 wFs "jobs" wTmp SaveFault.duringWrite freshJob 42 freshJob
     (by decide) (by decide) (by decide)⟩

/-- Claim C8: saving a reachable (model-valid) job and loading it back
returns a record equal to the one that was saved (the job with its
`updated_at` stamped by `save`); serialization round-trips every field. -/
theorem claim_C8 (fs : FS) (dir tempName : String) (j : Job) (now : Nat)
    (hv : jobValid j = true) :
    (storeSave fs dir tempName SaveFault.ok j now).error = none ∧
    storeGet (storeSave fs dir tempName SaveFault.ok j now).fs dir j.job_id =
      some { j with updated_at := now } := by
  constructor
  · rfl
  · have hval : jobValid { j with updated_at := now } = true := hv
    simp only [storeSave, storeGet]
    rw [fsLookup_fsSet_self]
    exact decEnc_job _ hval

/-- Witness for claim C8: round-trip of the concrete completed job through
an empty store. -/
theorem claim_C8_witness :
    jobValid completedJob = true ∧
    ((storeSave [] "jobs" wTmp SaveFault.ok completedJob 99).error = none ∧
    storeGet (storeSave [] "jobs" wTmp SaveFault.ok completedJob 99).fs "jobs"
      completedJob.job_id = some { completedJob with updated_at := 99 }) :=
  ⟨by decide, claim_C8 [] "jobs" wTmp completedJob 99 (by decide)⟩

/-- Claim C9 fails as stated: in a store of 101 running jobs the oldest
running job is missing from `get_resumable_jobs`, because `list_jobs` is
called with its default `limit=100`. -/
theorem claim_C9_counterexample :
    runningJob 0 ∈ store101 ∧ (runningJob 0).status = JobStatus.running ∧
    ∀ x ∈ getResumableJobs store101, x.job_id ≠ (runningJob 0).job_id := by
  decide

/-- Witness for the amended claim C9 on a small four-status store. -/
theorem claim_C9_witness :
    (storeW.filter fun j => decide (j.status = JobStatus.running)).length ≤ 100 ∧
    (storeW.filter fun j => decide (j.status = JobStatus.failed)).length ≤ 100 ∧
    (runningJob 3 ∈ getResumableJobs storeW ↔
      (runningJob 3 ∈ storeW ∧
        ((runningJob 3).status = JobStatus.running ∨
         (runningJob 3).status = JobStatus.failed))) :=
  ⟨by decide, by decide, claim_C9_amended storeW (by decide) (by decide) (runningJob 3)⟩

/-- Witness for claim C5 on concrete jobs of each status. -/
theorem claim_C5_witness :
    resume okB none 5 = ResumeOutcome.notFound ∧
    resume okB (some completedJob) 5 = ResumeOutcome.done completedJob ∧
    resume okB (some freshJob) 5 = ResumeOutcome.invalidState JobStatus.pending ∧
    resume failTheme (some failedJob) 5 =
      ResumeOutcome.ran
        (run failTheme
          { job := { failedJob with
              error := none,
              retry_count := failedJob.retry_count + 1 },
            clock := 5, saves := [] }).1
        (run failTheme
          { job := { failedJob with
              error := none,
              retry_count := failedJob.retry_count + 1 },
            clock := 5, saves := [] }).2 :=
  ⟨(claim_C5 okB 5).1, (claim_C5 okB 5).2.1 completedJob (by decide),
   (claim_C5 okB 5).2.2.1 freshJob (by decide),
   (claim_C5 failTheme 5).2.2.2 failedJob (Or.inl (by decide))⟩


end SeoGen
